import Mathlib

/-!
# CAS client middleware: session resolution, Single Logout, REST Basic-Auth
and ticket validation

A shallow embedding of the Go package `cas` (files `client.go`, `handler.go`,
`rest_handler.go`, `rest_client.go`, `http_helpers.go`, `service_validate.go`)
and of its packages `proxy`, `proxy/store` and `urlscheme`.

Conventions of the embedding.

* A Go `string` is a Lean `String`; its characters stand for the bytes of the
  Go string, so `len(s)` is `s.length` and `s[i:j]` is a slice of `s.data`.
* A Go `error` is carried by its text (`GoError`); a run-time panic (nil
  dereference, slice out of range) is kept apart from an error (`Failure`).
* A Go pointer that may be nil is an `Option`.
* Stateful code is written in state-passing style: a handler maps the state of
  the stores, the response writer and the request to their new values.
* Interfaces (`TicketStore`, `SessionStore`, `ProxyStore`, `URLScheme`) are records of
  operations over an arbitrary state type; the default in-memory stores are
  given as instances.
* The standard library and the outbound network are parameters (`Lib`,
  `Transport`); every request sent through `http.Client` is appended to a log.
-/

set_option autoImplicit false

namespace Cas

/-! ## Errors and panics -/

/-- A Go `error` value, identified with the text returned by `Error()`. -/
abbrev GoError := String

/-- The two ways a Go call fails to produce its value: a returned `error`, or a
run-time panic that unwinds the handler. -/
inductive Failure where
  | err (text : GoError)
  | runtimePanic (text : String)
deriving DecidableEq, Repr

/-! ## `url.Values` and `http.Header` -/

/-- Go `url.Values` / `http.Header`: a map from key to the ordered list of its
values, kept as an association list with one entry per key. -/
abbrev Values := List (String × List String)

/-- Go `Values.Get`: the first value of the key, or `""`. -/
def Values.Get (v : Values) (key : String) : String :=
  match v.lookup key with
  | some (x :: _) => x
  | _ => ""

/-- Go `Values.Add`: append a value to the list of the key. -/
def Values.Add : Values → String → String → Values
  | [], key, value => [(key, [value])]
  | (k, vs) :: rest, key, value =>
    if k = key then (k, vs ++ [value]) :: rest
    else (k, vs) :: Values.Add rest key value

/-- Go `Values.Set`: replace the values of the key by the single value. -/
def Values.Set : Values → String → String → Values
  | [], key, value => [(key, [value])]
  | (k, vs) :: rest, key, value =>
    if k = key then (k, [value]) :: rest
    else (k, vs) :: Values.Set rest key value

/-- Go `Values.Del`: remove the key. -/
def Values.Del (v : Values) (key : String) : Values :=
  v.filter (fun kv => kv.1 ≠ key)

/-! ## Data model -/

/-- Go `time.Time`, as an offset from the zero time; `0` is the zero value. -/
abbrev Time := Int

/-- Modelled from the spec: the declaration of `AuthenticationResponse` is not
among the sources; the fields are those read by the accessors of
`http_helpers.go` (a nil map or nil slice is `none`). -/
structure AuthenticationResponse where
  User : String := ""
  ProxyGrantingTicket : String := ""
  Attributes : Option Values := none
  AuthenticationDate : Time := 0
  IsNewLogin : Bool := false
  IsRememberedLogin : Bool := false
  MemberOf : Option (List String) := none
deriving DecidableEq, Repr

/-- Go `net/url.URL`, by the fields this package reads or writes. -/
structure URL where
  Scheme : String := ""
  User : Option String := none
  Host : String := ""
  Path : String := ""
  RawQuery : String := ""
deriving DecidableEq, Repr

/-- Go `http.Cookie`, by the fields this package reads or writes. -/
structure Cookie where
  Name : String := ""
  Value : String := ""
  Path : String := ""
  Domain : String := ""
  MaxAge : Int := 0
  HttpOnly : Bool := false
  Secure : Bool := false
  SameSite : Nat := 0
deriving DecidableEq, Repr

/-- The value stored in a request context under `authenticationResponseKey`:
absent, or a (possibly nil) `*AuthenticationResponse`. -/
abbrev CtxAuth := Option (Option AuthenticationResponse)

/-- Go `http.Request` as seen by the middleware. `Header` has canonical keys;
`Cookies` are the name/value pairs read from the `Cookie` header; `Query` is `URL.Query()`, the parsed
`URL.RawQuery`; `PostForm` is the parsed urlencoded body (empty unless the
method is POST, PUT or PATCH and the content type is urlencoded); `BasicAuth`
is the result of `Request.BasicAuth()`; `ctxClient` and `ctxAuth` are the two
context values of `http_helpers.go`. -/
structure Request where
  Method : String := "GET"
  URL : URL := {}
  Host : String := ""
  TLS : Bool := false
  Header : Values := []
  Cookies : List (String × String) := []
  Query : Values := []
  PostForm : Values := []
  BasicAuth : Option (String × String) := none
  ctxClient : Bool := false
  ctxAuth : CtxAuth := none
deriving DecidableEq, Repr

/-- Go `http.ResponseWriter`: the header map, the cookies added by
`http.SetCookie` (the `Set-Cookie` header lines, kept structured), the status
fixed by the first `WriteHeader`, and the body written so far. -/
structure ResponseWriter where
  Header : Values := []
  SetCookies : List Cookie := []
  status : Option Nat := none
  body : String := ""
deriving DecidableEq, Repr

/-- Go `ResponseWriter.WriteHeader`: only the first call fixes the status. -/
def ResponseWriter.WriteHeader (w : ResponseWriter) (code : Nat) : ResponseWriter :=
  match w.status with
  | none => { w with status := some code }
  | some _ => w

/-- Go `ResponseWriter.Write`: writing a body fixes the status to 200 when no
status has been written. -/
def ResponseWriter.Write (w : ResponseWriter) (s : String) : ResponseWriter :=
  { w.WriteHeader 200 with body := w.body ++ s }

/-- Go `http.Error`: plain-text content type, the status, and the error text
followed by a newline (`fmt.Fprintln`) as the body. -/
def httpError (w : ResponseWriter) (error : String) (code : Nat) : ResponseWriter :=
  let h := Values.Del w.Header "Content-Length"
  let h := Values.Set h "Content-Type" "text/plain; charset=utf-8"
  let h := Values.Set h "X-Content-Type-Options" "nosniff"
  (({ w with Header := h }).WriteHeader code).Write (error ++ "\n")

/-- Go `http.SetCookie`: add a `Set-Cookie` line for the cookie. -/
def httpSetCookie (w : ResponseWriter) (c : Cookie) : ResponseWriter :=
  { w with SetCookies := w.SetCookies ++ [c] }

/-- Go `Request.Cookie`: the first cookie of that name sent with the request;
only its name and value are known. -/
def Request.Cookie (r : Request) (name : String) : Option Cookie :=
  match r.Cookies.find? (fun p => p.1 = name) with
  | some p => some { Name := p.1, Value := p.2 }
  | none => none

/-- Go `Request.AddCookie`: append the cookie to the `Cookie` header. -/
def Request.AddCookie (r : Request) (c : Cas.Cookie) : Request :=
  { r with Cookies := r.Cookies ++ [(c.Name, c.Value)] }

/-- Go `Request.FormValue`: the first value of the key in `Request.Form`, which
lists the values of the urlencoded body before those of the URL query. -/
def Request.FormValue (r : Request) (key : String) : String :=
  match (r.PostForm.lookup key).getD [] ++ (r.Query.lookup key).getD [] with
  | x :: _ => x
  | [] => ""

/-- Go `path.Base`: the last element of the path, trailing slashes removed;
`"."` for the empty path and `"/"` for a path of slashes only. -/
def pathBase (path : String) : String :=
  if path = "" then "."
  else
    let stripped := (path.data.reverse.dropWhile (fun ch => ch = '/')).reverse
    let last := (stripped.reverse.takeWhile (fun ch => ch ≠ '/')).reverse
    if last = [] then "/" else String.mk last

/-- Go slice expression `s[lo:hi]` on a string: a run-time panic unless
`0 ≤ lo ≤ hi ≤ len(s)`. -/
def goSlice (s : String) (lo hi : Int) : Except Failure String :=
  if 0 ≤ lo ∧ lo ≤ hi ∧ hi ≤ (s.length : Int) then
    .ok (String.mk ((s.data.take hi.toNat).drop lo.toNat))
  else
    .error (.runtimePanic "runtime error: slice bounds out of range")

/-! ## Stores -/

/-- Modelled from the spec: the `TicketStore` interface is declared outside
the given sources; the operations are those called in `client.go` and
`handler.go` (`Read` returns a response or an error, `Write` and `Delete`
return an error or nil), over a store state `τ`. -/
structure TicketStore (τ : Type) where
  Read : τ → String → Except GoError (Option AuthenticationResponse)
  Write : τ → String → Option AuthenticationResponse → τ × Option GoError
  Delete : τ → String → τ × Option GoError

/-- Modelled from the spec: the `SessionStore` interface is declared outside
the given sources; the operations are those called in `client.go` (`Get`
returns the ticket and whether it was found; the results of `Set` and `Delete`
are not inspected by the callers), over a store state `ς`. -/
structure SessionStore (ς : Type) where
  Get : ς → String → Option String
  Set : ς → String → String → ς
  Delete : ς → String → ς

/-- Modelled from the spec: the default in-memory `TicketStore` (`MemoryStore`)
is a single mapping from ticket to authentication response. -/
abbrev MemoryStore := List (String × Option AuthenticationResponse)

/-- Modelled from the spec: `MemoryStore.Read` reports not-found as an error. -/
def MemoryStore.Read (m : MemoryStore) (id : String) :
    Except GoError (Option AuthenticationResponse) :=
  match m.lookup id with
  | some t => .ok t
  | none => .error "cas: ticket store: ticket not found"

/-- Modelled from the spec: `MemoryStore.Write` maps the ticket to the
response. -/
def MemoryStore.Write (m : MemoryStore) (id : String) (t : Option AuthenticationResponse) :
    MemoryStore × Option GoError :=
  ((id, t) :: m.filter (fun p => p.1 ≠ id), none)

/-- Modelled from the spec: `MemoryStore.Delete` removes the ticket; deleting
an absent ticket is not an error. -/
def MemoryStore.Delete (m : MemoryStore) (id : String) : MemoryStore × Option GoError :=
  (m.filter (fun p => p.1 ≠ id), none)

/-- The default `TicketStore`. -/
def memoryTicketStore : TicketStore MemoryStore :=
  { Read := MemoryStore.Read, Write := MemoryStore.Write, Delete := MemoryStore.Delete }

/-- Modelled from the spec: the default in-memory `SessionStore` is a single
mapping from session id to ticket. -/
abbrev MemorySessionStore := List (String × String)

/-- Modelled from the spec: `Get` of the in-memory session store. -/
def MemorySessionStore.Get (m : MemorySessionStore) (sessionID : String) : Option String :=
  m.lookup sessionID

/-- Modelled from the spec: `Set` of the in-memory session store. -/
def MemorySessionStore.Set (m : MemorySessionStore) (sessionID ticket : String) :
    MemorySessionStore :=
  (sessionID, ticket) :: m.filter (fun p => p.1 ≠ sessionID)

/-- Modelled from the spec: `Delete` of the in-memory session store removes the
entry whose key is the given session id. -/
def MemorySessionStore.Delete (m : MemorySessionStore) (sessionID : String) :
    MemorySessionStore :=
  m.filter (fun p => p.1 ≠ sessionID)

/-- The default `SessionStore`. -/
def memorySessionStore : SessionStore MemorySessionStore :=
  { Get := MemorySessionStore.Get, Set := MemorySessionStore.Set,
    Delete := MemorySessionStore.Delete }

/-! ## External collaborators -/

/-- Go `proxy.XmlProxyFailure`. -/
structure XmlProxyFailure where
  Code : String := ""
  Message : String := ""
deriving DecidableEq, Repr

/-- Go `proxy.XmlProxySuccess`. -/
structure XmlProxySuccess where
  ProxyTicket : String := ""
deriving DecidableEq, Repr

/-- Go `proxy.XmlProxyResponse`: the two envelopes are pointers, nil when the
element is absent from the document. -/
structure XmlProxyResponse where
  Failure : Option XmlProxyFailure := none
  Success : Option XmlProxySuccess := none
deriving DecidableEq, Repr

/-- The functions of the Go standard library the package calls on URLs and on
XML documents. -/
structure Lib where
  /-- Go `url.Parse`. -/
  urlParse : String → Except GoError URL
  /-- Go `(*url.URL).String`. -/
  urlString : URL → String
  /-- Go `(*url.URL).Parse`: resolve a reference against a base URL. -/
  urlResolve : URL → String → Except GoError URL
  /-- Go `path.Join` of two elements. -/
  pathJoin : String → String → String
  /-- Go `(*url.URL).Query`, applied to the raw query. -/
  parseQuery : String → Values
  /-- Go `url.Values.Encode`. -/
  encode : Values → String
  /-- Go `xml.Unmarshal` of a body into a zero `XmlProxyResponse`: the value of
  the struct after the call (its error is not inspected by the caller). -/
  xmlUnmarshalProxy : String → XmlProxyResponse

/-- Go `logoutRequest`, the decoded Single-Logout XML: the ticket to revoke. -/
structure LogoutRequest where
  SessionIndex : String
deriving DecidableEq, Repr

/-- Modelled from the spec: the XML decoders and the URL sanitiser of the
package are not among the sources; they are taken as parameters. -/
structure Codec where
  /-- The package function `ParseServiceResponse`. -/
  ParseServiceResponse : String → Except GoError (Option AuthenticationResponse)
  /-- The package function `parseLogoutRequest`. -/
  parseLogoutRequest : String → Except GoError LogoutRequest
  /-- The package function `sanitisedURLString`. -/
  sanitisedURLString : URL → String

/-- An outbound request handed to `http.Client`. -/
structure OutRequest where
  Method : String
  URL : String
  Header : Values := []
  Body : String := ""
deriving DecidableEq, Repr

/-- The response of the identity provider: status, headers, and the result of
reading the body to its end (`io.ReadAll`). -/
structure HttpResponse where
  StatusCode : Nat
  Header : Values := []
  Body : Except GoError String

/-- The outbound transport `http.Client.Do`: a transport error or a response. -/
abbrev Transport := OutRequest → Except GoError HttpResponse

/-- Go `http.NewRequest` with a valid method and no body: fails when the URL
does not parse. -/
def newRequest (lib : Lib) (method url : String) : Except GoError OutRequest :=
  match lib.urlParse url with
  | .error e => .error e
  | .ok _ => .ok { Method := method, URL := url }

/-- The `URLScheme` interface of package `urlscheme`. -/
structure URLScheme where
  Login : Except GoError URL
  Logout : Except GoError URL
  Validate : Except GoError URL
  ServiceValidate : Except GoError URL
  RestGrantingTicket : Except GoError URL
  RestServiceTicket : String → Except GoError URL
  RestLogout : String → Except GoError URL
  Proxy : Except GoError URL
  ProxyValidate : Except GoError URL

/-- Go `urlscheme.DefaultURLScheme`. -/
structure DefaultURLScheme where
  base : URL
  LoginPath : String
  LogoutPath : String
  ValidatePath : String
  ServiceValidatePath : String
  RestEndpoint : String
  ProxyPath : String
  ProxyValidatePath : String

/-- Go `urlscheme.NewDefaultURLScheme`: the default CAS paths. -/
def NewDefaultURLScheme (lib : Lib) (base : URL) : DefaultURLScheme :=
  { base := base, LoginPath := "login", LogoutPath := "logout", ValidatePath := "validate",
    ServiceValidatePath := "serviceValidate", RestEndpoint := lib.pathJoin "v1" "tickets",
    ProxyValidatePath := "proxyValidate", ProxyPath := "proxy" }

/-- Go `DefaultURLScheme.createURL`: the path joined to the base path and
resolved against the base URL. -/
def DefaultURLScheme.createURL (lib : Lib) (scheme : DefaultURLScheme) (urlPath : String) :
    Except GoError URL :=
  lib.urlResolve scheme.base (lib.pathJoin scheme.base.Path urlPath)

/-- The methods by which `DefaultURLScheme` implements `URLScheme`. -/
def DefaultURLScheme.toURLScheme (lib : Lib) (scheme : DefaultURLScheme) : URLScheme where
  Login := scheme.createURL lib scheme.LoginPath
  Logout := scheme.createURL lib scheme.LogoutPath
  Validate := scheme.createURL lib scheme.ValidatePath
  ServiceValidate := scheme.createURL lib scheme.ServiceValidatePath
  RestGrantingTicket := scheme.createURL lib scheme.RestEndpoint
  RestServiceTicket tgt := scheme.createURL lib (lib.pathJoin scheme.RestEndpoint tgt)
  RestLogout tgt := scheme.createURL lib (lib.pathJoin scheme.RestEndpoint tgt)
  Proxy := scheme.createURL lib scheme.ProxyPath
  ProxyValidate := scheme.createURL lib scheme.ProxyValidatePath

/-- Go `proxy.Proxy`, without its store: the `proxyStore` field is the pair of
`ProxyStore` operations and store state passed to the methods that use it.
`NewClient` and `NewRestClient` always install a non-nil proxy. -/
structure Proxy where
  requestProxy : Bool := false
  proxyCallbackURL : URL := {}
  urlScheme : URLScheme

/-- Go `Proxy.IsEnabled`. -/
def Proxy.IsEnabled (p : Proxy) : Bool := p.requestProxy

/-- Go `Proxy.GetProxyCallbackURL`. -/
def Proxy.GetProxyCallbackURL (p : Proxy) : URL := p.proxyCallbackURL

/-! ## `proxy/store` and `proxy/proxy.go` -/

/-- Go `store.ProxyStore`, the interface of the IOU to PGT store, over a store
state `π`. -/
structure ProxyStore (π : Type) where
  Get : π → String → String × Bool
  Set : π → String → String → π × Option GoError
  Delete : π → String → π × Option GoError
  Clear : π → π × Option GoError

/-- Go `store.MemoryProxyStore`: the Go map `store`, as the list of its
entries; the map is the one allocated by `NewMemoryProxyStore` or `Clear`,
never the nil map of a zero-value struct. -/
abbrev MemoryProxyStore := List (String × String)

/-- Go `store.NewMemoryProxyStore`: an empty map. -/
def NewMemoryProxyStore : MemoryProxyStore := []

/-- Go `MemoryProxyStore.Get`: `pgt, ok := m.store[iou]`. -/
def MemoryProxyStore.Get (m : MemoryProxyStore) (iou : String) : String × Bool :=
  match m.lookup iou with
  | some pgt => (pgt, true)
  | none => ("", false)

/-- Go `MemoryProxyStore.Set`: `m.store[iou] = pgt`. -/
def MemoryProxyStore.Set (m : MemoryProxyStore) (iou pgt : String) :
    MemoryProxyStore × Option GoError :=
  ((iou, pgt) :: m.filter (fun p => p.1 ≠ iou), none)

/-- Go `MemoryProxyStore.Delete`: `delete(m.store, iou)`. -/
def MemoryProxyStore.Delete (m : MemoryProxyStore) (iou : String) :
    MemoryProxyStore × Option GoError :=
  (m.filter (fun p => p.1 ≠ iou), none)

/-- Go `MemoryProxyStore.Clear`: replace the map by a new empty one. -/
def MemoryProxyStore.Clear (_m : MemoryProxyStore) : MemoryProxyStore × Option GoError :=
  ([], none)

/-- The methods by which `MemoryProxyStore` implements `ProxyStore`. -/
def memoryProxyStore : ProxyStore MemoryProxyStore :=
  { Get := MemoryProxyStore.Get, Set := MemoryProxyStore.Set,
    Delete := MemoryProxyStore.Delete, Clear := MemoryProxyStore.Clear }

/-- Go `errProxyIouNotFound`. -/
def errProxyIouNotFound : GoError := "cas: proxy iou not found in store"

section
variable {π : Type}

/-- Go `Proxy.Handle`: the proxy callback. A GET with both `pgtIou` and `pgtId`
stores the pair; every GET is answered 200; any other method is answered 405
by `http.Error`. -/
def Proxy.Handle (store : ProxyStore π) (_p : Proxy) (st : π) (w : ResponseWriter)
    (r : Request) : π × ResponseWriter :=
  if r.Method ≠ "GET" then
    (st, httpError w "Method not allowed" 405)
  else
    let pgtIou := r.Query.Get "pgtIou"
    let pgtId := r.Query.Get "pgtId"
    let st1 :=
      if pgtId ≠ "" ∧ pgtIou ≠ "" then
        (store.Set st (r.Query.Get "pgtIou") (r.Query.Get "pgtId")).1
      else st
    (st1, w.WriteHeader 200)

/-- Go `Proxy.GetProxyTgt`. -/
def Proxy.GetProxyTgt (store : ProxyStore π) (_p : Proxy) (st : π) (pgtIou : String) :
    String × Bool :=
  store.Get st pgtIou

/-- Go `Proxy.GetProxyURL`: the provider's `proxy` endpoint with the
`targetService` and `pgt` parameters, as the returned `(string, error)` pair. -/
def Proxy.GetProxyURL (lib : Lib) (store : ProxyStore π) (p : Proxy) (st : π)
    (targetService pgtIou : String) : String × Option GoError :=
  match p.GetProxyTgt store st pgtIou with
  | (_, false) => ("", some errProxyIouNotFound)
  | (pgt, true) =>
    match p.urlScheme.Proxy with
    | .error e => ("", some e)
    | .ok casUrl =>
      let q := lib.parseQuery casUrl.RawQuery
      let q := q.Set "targetService" targetService
      let q := q.Set "pgt" pgt
      (lib.urlString { casUrl with RawQuery := lib.encode q }, none)

end

/-! ## `service_validate.go` -/

/-- Go `ServiceTicketValidator`: the CAS base URL (the HTTP client is the
`Transport` parameter of the methods). -/
structure ServiceTicketValidator where
  casURL : URL

/-- The outcome of a ticket validation: the requests sent to the identity
provider, in order, and the returned `(*AuthenticationResponse, error)` pair or
a panic. -/
structure Validation where
  sent : List OutRequest
  result : Except Failure (Option AuthenticationResponse)

/-- The `User-Agent` header added to validation requests. -/
def userAgent : String := "Golang CAS client github.com/mattmohan-flipp/cas/v2"

/-- Go `ServiceTicketValidator.ServiceValidateUrl`: the CAS >= 2 validation
URL. -/
def ServiceTicketValidator.ServiceValidateUrl (lib : Lib) (codec : Codec)
    (validator : ServiceTicketValidator) (serviceURL : URL) (ticket : String)
    (proxy : Proxy) : Except GoError String :=
  match lib.urlResolve validator.casURL (lib.pathJoin validator.casURL.Path "serviceValidate") with
  | .error e => .error e
  | .ok u =>
    let q := lib.parseQuery u.RawQuery
    let q := q.Add "service" (codec.sanitisedURLString serviceURL)
    let q := q.Add "ticket" ticket
    let q := if proxy.IsEnabled then
        q.Add "pgtUrl" (codec.sanitisedURLString proxy.GetProxyCallbackURL)
      else q
    .ok (lib.urlString { u with RawQuery := lib.encode q })

/-- Go `ServiceTicketValidator.ValidateUrl`: the CAS 1 validation URL. -/
def ServiceTicketValidator.ValidateUrl (lib : Lib) (codec : Codec)
    (validator : ServiceTicketValidator) (serviceURL : URL) (ticket : String) :
    Except GoError String :=
  match lib.urlResolve validator.casURL (lib.pathJoin validator.casURL.Path "validate") with
  | .error e => .error e
  | .ok u =>
    let q := lib.parseQuery u.RawQuery
    let q := q.Add "service" (codec.sanitisedURLString serviceURL)
    let q := q.Add "ticket" ticket
    .ok (lib.urlString { u with RawQuery := lib.encode q })

/-- Go `ServiceTicketValidator.validateTicketCas1`: validation against the
CAS 1 `validate` endpoint and its plaintext answer. -/
def ServiceTicketValidator.validateTicketCas1 (lib : Lib) (codec : Codec) (net : Transport)
    (validator : ServiceTicketValidator) (serviceURL : URL) (ticket : String) : Validation :=
  match validator.ValidateUrl lib codec serviceURL ticket with
  | .error e => ⟨[], .error (.err e)⟩
  | .ok u =>
    match newRequest lib "GET" u with
    | .error e => ⟨[], .error (.err e)⟩
    | .ok r0 =>
      let r := { r0 with Header := r0.Header.Add "User-Agent" userAgent }
      match net r with
      | .error e => ⟨[r], .error (.err e)⟩
      | .ok resp =>
        match resp.Body with
        | .error e => ⟨[r], .error (.err e)⟩
        | .ok body =>
          if resp.StatusCode ≠ 200 then
            ⟨[r], .error (.err ("cas: validate ticket: " ++ body))⟩
          else if body = "no\n\n" then
            ⟨[r], .ok none⟩
          else
            match goSlice body 4 ((body.length : Int) - 1) with
            | .error f => ⟨[r], .error f⟩
            | .ok user => ⟨[r], .ok (some { User := user })⟩

/-- Go `ServiceTicketValidator.ValidateTicket`: validation against the
`serviceValidate` endpoint, falling back to CAS 1 on status 404. -/
def ServiceTicketValidator.ValidateTicket (lib : Lib) (codec : Codec) (net : Transport)
    (validator : ServiceTicketValidator) (serviceURL : URL) (ticket : String)
    (proxy : Proxy) : Validation :=
  match validator.ServiceValidateUrl lib codec serviceURL ticket proxy with
  | .error e => ⟨[], .error (.err e)⟩
  | .ok u =>
    match newRequest lib "GET" u with
    | .error e => ⟨[], .error (.err e)⟩
    | .ok r0 =>
      let r := { r0 with Header := r0.Header.Add "User-Agent" userAgent }
      match net r with
      | .error e => ⟨[r], .error (.err e)⟩
      | .ok resp =>
        if resp.StatusCode = 404 then
          let v := validator.validateTicketCas1 lib codec net serviceURL ticket
          ⟨r :: v.sent, v.result⟩
        else
          match resp.Body with
          | .error e => ⟨[r], .error (.err e)⟩
          | .ok body =>
            if resp.StatusCode ≠ 200 then
              ⟨[r], .error (.err ("cas: validate ticket: " ++ body))⟩
            else
              match codec.ParseServiceResponse body with
              | .error e => ⟨[r], .error (.err e)⟩
              | .ok success => ⟨[r], .ok success⟩

/-! ## `http_helpers.go` -/

/-- Go `setClient`: associate the client with the request. -/
def setClient (r : Request) : Request :=
  { r with ctxClient := true }

/-- Go `setAuthenticationResponse`: associate the (possibly nil) response with
the request. -/
def setAuthenticationResponse (r : Request) (a : Option AuthenticationResponse) : Request :=
  { r with ctxAuth := some a }

/-- Go `getAuthenticationResponse`: the response associated with the request,
nil when there is none. -/
def getAuthenticationResponse (r : Request) : Option AuthenticationResponse :=
  match r.ctxAuth with
  | some a => a
  | none => none

/-- Go `IsAuthenticated`. -/
def IsAuthenticated (r : Request) : Bool :=
  match getAuthenticationResponse r with
  | some _ => true
  | none => false

/-- Go `Username`. -/
def Username (r : Request) : String :=
  match getAuthenticationResponse r with
  | some a => a.User
  | none => ""

/-- Go `Attributes`: the attributes of the authenticated user, or a nil map. -/
def Attributes (r : Request) : Option Values :=
  match getAuthenticationResponse r with
  | some a => a.Attributes
  | none => none

/-- Go `AuthenticationDate`: the zero time when no response is attached. -/
def AuthenticationDate (r : Request) : Time :=
  match getAuthenticationResponse r with
  | some a => a.AuthenticationDate
  | none => 0

/-- Go `IsNewLogin`. -/
def IsNewLogin (r : Request) : Bool :=
  match getAuthenticationResponse r with
  | some a => a.IsNewLogin
  | none => false

/-- Go `IsRememberedLogin`. -/
def IsRememberedLogin (r : Request) : Bool :=
  match getAuthenticationResponse r with
  | some a => a.IsRememberedLogin
  | none => false

/-- Go `MemberOf`: the groups of the authenticated user, or a nil slice. -/
def MemberOf (r : Request) : Option (List String) :=
  match getAuthenticationResponse r with
  | some a => a.MemberOf
  | none => none

/-- Go `errNoClient`. -/
def errNoClient : GoError := "cas: no client associated with request"

/-- Go `errNoAuthenticationResponse`. -/
def errNoAuthenticationResponse : GoError :=
  "cas: no authentication response associated with request"

/-- Go `errProxyTicketError`. -/
def errProxyTicketError : GoError := "cas: error getting proxy ticket"

/-! ## `rest_client.go` -/

/-- Go `RestClient`. -/
structure RestClient where
  urlScheme : URLScheme
  serviceURL : URL
  stValidator : ServiceTicketValidator
  proxy : Proxy

/-- Go `http.Client.PostForm`: build a POST request with the urlencoded values
as body and send it; the requests sent are returned with the result. -/
def postForm (lib : Lib) (net : Transport) (url : String) (data : Values) :
    List OutRequest × Except GoError HttpResponse :=
  match newRequest lib "POST" url with
  | .error e => ([], .error e)
  | .ok r0 =>
    let r := { r0 with
      Header := Values.Set r0.Header "Content-Type" "application/x-www-form-urlencoded",
      Body := lib.encode data }
    ([r], net r)

/-- Go `RestClient.RequestGrantingTicket`: a new TGT for the credentials. -/
def RestClient.RequestGrantingTicket (lib : Lib) (net : Transport) (c : RestClient)
    (username password : String) : List OutRequest × Except GoError String :=
  match c.urlScheme.RestGrantingTicket with
  | .error e => ([], .error e)
  | .ok endpoint =>
    let values := Values.Set (Values.Set [] "username" username) "password" password
    match postForm lib net (lib.urlString endpoint) values with
    | (sent, .error e) => (sent, .error e)
    | (sent, .ok resp) =>
      if resp.StatusCode ≠ 201 then
        (sent, .error ("ticket endoint returned status code " ++ toString resp.StatusCode))
      else
        let tgt := pathBase (resp.Header.Get "Location")
        if tgt = "" then (sent, .error "does not return a valid location header")
        else (sent, .ok tgt)

/-- Go `RestClient.RequestServiceTicket`: a service ticket for the TGT and the
configured service URL. -/
def RestClient.RequestServiceTicket (lib : Lib) (net : Transport) (c : RestClient)
    (tgt : String) : List OutRequest × Except GoError String :=
  match c.urlScheme.RestServiceTicket tgt with
  | .error e => ([], .error e)
  | .ok endpoint =>
    let values := Values.Set [] "service" (lib.urlString c.serviceURL)
    match postForm lib net (lib.urlString endpoint) values with
    | (sent, .error e) => (sent, .error e)
    | (sent, .ok resp) =>
      if resp.StatusCode ≠ 200 then
        (sent, .error ("service ticket endoint returned status code " ++
          toString resp.StatusCode))
      else
        match resp.Body with
        | .error e => (sent, .error e)
        | .ok data => (sent, .ok data)

/-- Go `RestClient.ValidateServiceTicket`. -/
def RestClient.ValidateServiceTicket (lib : Lib) (codec : Codec) (net : Transport)
    (c : RestClient) (st : String) : Validation :=
  c.stValidator.ValidateTicket lib codec net c.serviceURL st c.proxy

/-! ## `rest_handler.go` -/

/-- What a handler behind the REST middleware works on: the response writer,
the request, and the log of requests sent to the identity provider. -/
structure RestConn where
  w : ResponseWriter
  r : Request
  sent : List OutRequest := []

/-- The result of serving one request through `restClientHandler`: the final
connection state, how many times the wrapped handler was invoked, the request
it was invoked with, and the panic that ended the handler, if any. -/
structure RestOutcome where
  conn : RestConn
  calls : Nat
  passed : Option Request
  panicked : Option String

/-- Go `restClientHandler.authenticate`: TGT, then ST, then validation. -/
def restClientHandler.authenticate (lib : Lib) (codec : Codec) (net : Transport)
    (c : RestClient) (username password : String) : Validation :=
  match c.RequestGrantingTicket lib net username password with
  | (sent1, .error e) => ⟨sent1, .error (.err e)⟩
  | (sent1, .ok tgt) =>
    match c.RequestServiceTicket lib net tgt with
    | (sent2, .error e) => ⟨sent1 ++ sent2, .error (.err e)⟩
    | (sent2, .ok st) =>
      let v := c.ValidateServiceTicket lib codec net st
      ⟨sent1 ++ sent2 ++ v.sent, v.result⟩

/-- The Basic challenge written with a 401. -/
def basicChallenge : String := "Basic realm=\"CAS Protected Area\""

/-- Go `restClientHandler.ServeHTTP`: Basic authentication over the CAS REST
protocol in front of the wrapped handler `h`. -/
def restClientHandler.ServeHTTP (lib : Lib) (codec : Codec) (net : Transport)
    (c : RestClient) (h : RestConn → RestConn) (x : RestConn) : RestOutcome :=
  match x.r.BasicAuth with
  | none =>
    let w := { x.w with Header := Values.Set x.w.Header "WWW-Authenticate" basicChallenge }
    { conn := { x with w := w.WriteHeader 401 }, calls := 0, passed := none, panicked := none }
  | some (username, password) =>
    let v := restClientHandler.authenticate lib codec net c username password
    let x := { x with sent := x.sent ++ v.sent }
    match v.result with
    | .error (.runtimePanic p) =>
      { conn := x, calls := 0, passed := none, panicked := some p }
    | .error (.err _) =>
      let w := { x.w with Header := Values.Set x.w.Header "WWW-Authenticate" basicChallenge }
      { conn := { x with w := w.WriteHeader 401 }, calls := 0, passed := none,
        panicked := none }
    | .ok success =>
      let x := { x with r := setAuthenticationResponse x.r success }
      { conn := h x, calls := 1, passed := some x.r, panicked := none }

/-! ## `client.go` -/

/-- Go `sessionCookieName`. -/
def sessionCookieName : String := "_cas_session"

/-- The alphabet of `newSessionID`. -/
def sessionAlphabet : String :=
  "abcdefghijklmnopqrstuvwxyzABCDEFGHIJKLMNOPQRSTUVWXYZ0123456789"

/-- Go `newSessionID`: 64 bytes of the random source (`rnd k` is the byte read
at position `k`), each replaced by `alphabet[v % len(alphabet)]`. -/
def newSessionID (rnd : Nat → Nat) : String :=
  String.mk ((List.range 64).map fun k =>
    sessionAlphabet.data.getD ((rnd k % 256) % (sessionAlphabet.length % 256)) 'a')

/-- Go `Client`: the stores, the cookie options, the validator and the proxy
settings (the HTTP client is the `Transport` parameter of the methods). -/
structure Client (τ ς : Type) where
  tickets : TicketStore τ
  sessions : SessionStore ς
  urlScheme : URLScheme
  cookie : Cookie := { MaxAge := 86400 }
  sendService : Bool := false
  stValidator : ServiceTicketValidator
  proxy : Proxy

/-- What a handler behind the session middleware works on: the states of the
two stores, the response writer, the request, and the log of requests sent to
the identity provider. -/
structure Conn (τ ς : Type) where
  tickets : τ
  sessions : ς
  w : ResponseWriter := {}
  r : Request := {}
  sent : List OutRequest := []

/-- The result of serving one request through `clientHandler`: the final
connection state, how many times the wrapped handler was invoked, and the
panic that ended the handler, if any. -/
structure Outcome (τ ς : Type) where
  conn : Conn τ ς
  calls : Nat
  panicked : Option String

/-- The panic of reading a field through a nil pointer. -/
def nilDereference : String :=
  "runtime error: invalid memory address or nil pointer dereference"

/-- Go `requestURL`: the absolute URL of the request. -/
def requestURL (lib : Lib) (r : Request) : Except GoError URL :=
  match lib.urlParse (lib.urlString r.URL) with
  | .error e => .error e
  | .ok u0 =>
    let u := { u0 with Host := r.Host }
    let host := r.Header.Get "X-Forwarded-Host"
    let u := if host ≠ "" then { u with Host := host } else u
    let u := { u with Scheme := "http" }
    let scheme := r.Header.Get "X-Forwarded-Proto"
    let u := if scheme ≠ "" then { u with Scheme := scheme }
      else if r.TLS then { u with Scheme := "https" } else u
    .ok u

/-- Go `clearCookie`: expire the cookie and set it on the response. -/
def clearCookie (w : ResponseWriter) (c : Cookie) : ResponseWriter :=
  httpSetCookie w { c with MaxAge := -1 }

section
variable {τ ς : Type}

/-- Go `Client.getCookie`: the session cookie of the request, or a new one set
on the response and echoed onto the request. -/
def Client.getCookie (c : Client τ ς) (rnd : Nat → Nat) (w : ResponseWriter) (r : Request) :
    Cookie × ResponseWriter × Request :=
  match r.Cookie sessionCookieName with
  | some cookie => (cookie, w, r)
  | none =>
    let cookie : Cookie :=
      { Name := sessionCookieName, Value := newSessionID rnd, Path := c.cookie.Path,
        Domain := c.cookie.Domain, MaxAge := c.cookie.MaxAge, HttpOnly := c.cookie.HttpOnly,
        Secure := c.cookie.Secure, SameSite := c.cookie.SameSite }
    (cookie, httpSetCookie w cookie, r.AddCookie cookie)

/-- Go `Client.setSession`: record the session id to ticket mapping. -/
def Client.setSession (c : Client τ ς) (sessions : ς) (id ticket : String) : ς :=
  c.sessions.Set sessions id ticket

/-- Go `Client.deleteSession`: remove the session of that id. -/
def Client.deleteSession (c : Client τ ς) (sessions : ς) (id : String) : ς :=
  c.sessions.Delete sessions id

/-- Go `Client.validateTicket`: validate the ticket for the request as service
and write the result to the ticket store. -/
def Client.validateTicket (lib : Lib) (codec : Codec) (net : Transport) (c : Client τ ς)
    (ticket : String) (x : Conn τ ς) : Conn τ ς × Except Failure Unit :=
  match requestURL lib x.r with
  | .error e => (x, .error (.err e))
  | .ok serviceURL =>
    let v := c.stValidator.ValidateTicket lib codec net serviceURL ticket c.proxy
    let x := { x with sent := x.sent ++ v.sent }
    match v.result with
    | .error f => (x, .error f)
    | .ok success =>
      match c.tickets.Write x.tickets ticket success with
      | (tickets, some e) => ({ x with tickets := tickets }, .error (.err e))
      | (tickets, none) => ({ x with tickets := tickets }, .ok ())

/-- Go `Client.getSession`: find or create the session of the request; reuse
the bound ticket, or validate the `ticket` URL parameter. Reading `t.User`
through a nil `t` panics. -/
def Client.getSession (lib : Lib) (codec : Codec) (net : Transport) (c : Client τ ς)
    (rnd : Nat → Nat) (x0 : Conn τ ς) : Conn τ ς × Option String :=
  let (cookie, w0, r0) := c.getCookie rnd x0.w x0.r
  let x1 := { x0 with w := w0, r := r0 }
  let validate := fun (x : Conn τ ς) =>
    let ticket := x.r.Query.Get "ticket"
    if ticket ≠ "" then
      match c.validateTicket lib codec net ticket x with
      | (x, .error (.err _)) => (x, none)
      | (x, .error (.runtimePanic p)) => (x, some p)
      | (x, .ok ()) =>
        let x := { x with sessions := c.setSession x.sessions cookie.Value ticket }
        match c.tickets.Read x.tickets ticket with
        | .ok none => (x, some nilDereference)
        | .ok (some t) => ({ x with r := setAuthenticationResponse x.r (some t) }, none)
        | .error _ => ({ x with w := clearCookie x.w cookie }, none)
    else (x, none)
  match c.sessions.Get x1.sessions cookie.Value with
  | some s =>
    match c.tickets.Read x1.tickets s with
    | .ok none => (x1, some nilDereference)
    | .ok (some t) => ({ x1 with r := setAuthenticationResponse x1.r (some t) }, none)
    | .error _ => validate { x1 with w := clearCookie x1.w cookie }
  | none => validate x1

/-- Go `Client.clearSession`: delete the ticket and the session of the request
cookie, and expire the cookie. -/
def Client.clearSession (c : Client τ ς) (rnd : Nat → Nat) (x0 : Conn τ ς) : Conn τ ς :=
  let (cookie, w0, r0) := c.getCookie rnd x0.w x0.r
  let x1 := { x0 with w := w0, r := r0 }
  let x2 :=
    match c.sessions.Get x1.sessions cookie.Value with
    | some serviceTicket =>
      let tickets := (c.tickets.Delete x1.tickets serviceTicket).1
      { x1 with tickets := tickets, sessions := c.deleteSession x1.sessions cookie.Value }
    | none => x1
  { x2 with w := clearCookie x2.w cookie }

/-! ## `handler.go` -/

/-- Go `isSingleLogoutRequest`: an HTTP POST urlencoded form with a
`logoutRequest` parameter. -/
def isSingleLogoutRequest (r : Request) : Bool :=
  if r.Method ≠ "POST" then false
  else if r.Header.Get "Content-Type" ≠ "application/x-www-form-urlencoded" then false
  else if r.FormValue "logoutRequest" = "" then false
  else true

/-- Go `clientHandler.performSingleLogout`: delete the ticket named by the
logout request and the session entry keyed by the same string. -/
def clientHandler.performSingleLogout (codec : Codec) (c : Client τ ς) (x : Conn τ ς) :
    Conn τ ς :=
  let rawXML := x.r.FormValue "logoutRequest"
  match codec.parseLogoutRequest rawXML with
  | .error e => { x with w := httpError x.w e 500 }
  | .ok logoutRequest =>
    match c.tickets.Delete x.tickets logoutRequest.SessionIndex with
    | (tickets, some e) => { x with tickets := tickets, w := httpError x.w e 500 }
    | (tickets, none) =>
      let sessions := c.deleteSession x.sessions logoutRequest.SessionIndex
      { x with tickets := tickets, sessions := sessions, w := x.w.WriteHeader 200 }

/-- Go `clientHandler.ServeHTTP`: Single Logout, or session resolution followed
by the wrapped handler `h`. -/
def clientHandler.ServeHTTP (lib : Lib) (codec : Codec) (net : Transport) (c : Client τ ς)
    (h : Conn τ ς → Conn τ ς) (rnd : Nat → Nat) (x0 : Conn τ ς) : Outcome τ ς :=
  let x := { x0 with r := setClient x0.r }
  if isSingleLogoutRequest x.r then
    { conn := clientHandler.performSingleLogout codec c x, calls := 0, panicked := none }
  else
    match c.getSession lib codec net rnd x with
    | (x, some p) => { conn := x, calls := 0, panicked := some p }
    | (x, none) => { conn := h x, calls := 1, panicked := none }

end

/-! ## `http_helpers.go`: the client of a request and proxy tickets -/

section
variable {τ ς π : Type}

/-- Go `getClient`: the client associated with the request, nil when there is
none. The embedding follows one client, `c`; `ctxClient` tells whether it is
attached. -/
def getClient (c : Client τ ς) (r : Request) : Option (Client τ ς) :=
  if r.ctxClient then some c else none

/-- Go `http.Client.Get`: build a GET request and send it; the requests sent
are returned with the result. -/
def httpGet (lib : Lib) (net : Transport) (url : String) :
    List OutRequest × Except GoError HttpResponse :=
  match newRequest lib "GET" url with
  | .error e => ([], .error e)
  | .ok r => ([r], net r)

/-- Go `GetProxyTicket`: a proxy ticket for the target service, from the
proxy-granting ticket of the response attached to the request. An error result
stands for the returned pair `("", err)`. Reading `Success.ProxyTicket` through
a nil `Success` panics. -/
def GetProxyTicket (lib : Lib) (net : Transport) (store : ProxyStore π) (c : Client τ ς)
    (st : π) (r : Request) (targetService : URL) : List OutRequest × Except Failure String :=
  match getClient c r with
  | none => ([], .error (.err errNoClient))
  | some c =>
    match getAuthenticationResponse r with
    | none => ([], .error (.err errNoAuthenticationResponse))
    | some a =>
      if a.ProxyGrantingTicket = "" then
        ([], .error (.err "cas: no proxy granting ticket available in authentication response"))
      else
        match c.proxy.GetProxyURL lib store st (lib.urlString targetService)
            a.ProxyGrantingTicket with
        | (_, some e) => ([], .error (.err e))
        | (url, none) =>
          match httpGet lib net url with
          | (sent, .error e) => (sent, .error (.err e))
          | (sent, .ok proxyReq) =>
            match proxyReq.Body with
            | .error e => (sent, .error (.err e))
            | .ok response =>
              let proxyResponse := lib.xmlUnmarshalProxy response
              match proxyResponse.Success with
              | none => (sent, .error (.runtimePanic nilDereference))
              | some success =>
                if success.ProxyTicket = "" then (sent, .error (.err errProxyTicketError))
                else (sent, .ok success.ProxyTicket)

end

/-! ## The finite map of the specification -/

/-- A finite map from IOU to PGT, as the specification describes the proxy
store: a key is mapped to at most one value. -/
abbrev FiniteMap := String → Option String

/-- The empty finite map. -/
def FiniteMap.empty : FiniteMap := fun _ => none

/-- Lookup in the finite map, as the pair `(value, found)`; `("", false)` when
the key is absent. -/
def FiniteMap.get (f : FiniteMap) (k : String) : String × Bool :=
  match f k with
  | some v => (v, true)
  | none => ("", false)

/-- The finite map with `k` mapped to `v`. -/
def FiniteMap.set (f : FiniteMap) (k v : String) : FiniteMap :=
  fun k2 => if k2 = k then some v else f k2

/-- The finite map without `k`. -/
def FiniteMap.delete (f : FiniteMap) (k : String) : FiniteMap :=
  fun k2 => if k2 = k then none else f k2

/-- The finite map a `MemoryProxyStore` stands for. -/
def MemoryProxyStore.toFiniteMap (m : MemoryProxyStore) : FiniteMap :=
  fun k => m.lookup k

/-! ## Concrete collaborators, for evaluating the embedding -/

/-- The text between an opening and a closing tag that wrap the whole input. -/
def between (opening closing raw : String) : Option String :=
  if opening.data.isPrefixOf raw.data ∧ closing.data.isSuffixOf raw.data ∧
      opening.length + closing.length ≤ raw.length then
    some (String.mk ((raw.data.drop opening.length).take
      (raw.length - opening.length - closing.length)))
  else none

/-- A plain `Lib`, which agrees with the Go library on the clean, escape-free
URLs of the examples. -/
def plainLib : Lib where
  urlParse s :=
    .ok { Path := String.mk (s.data.takeWhile fun ch => ch ≠ '?'),
          RawQuery := String.mk ((s.data.dropWhile fun ch => ch ≠ '?').drop 1) }
  urlString u :=
    (if u.Scheme = "" then "" else u.Scheme ++ "://") ++ u.Host ++ u.Path ++
      (if u.RawQuery = "" then "" else "?" ++ u.RawQuery)
  urlResolve base ref := .ok { base with Path := ref, RawQuery := "" }
  pathJoin a b := if a = "" then b else if b = "" then a else a ++ "/" ++ b
  parseQuery _ := []
  encode v := String.intercalate "&"
    (v.map fun kv => String.intercalate "&" (kv.2.map fun x => kv.1 ++ "=" ++ x))
  xmlUnmarshalProxy body :=
    match between "<proxySuccess><proxyTicket>" "</proxyTicket></proxySuccess>" body with
    | some t => { Success := some { ProxyTicket := t } }
    | none =>
      match between "<proxyFailure>" "</proxyFailure>" body with
      | some m => { Failure := some { Message := m } }
      | none => {}

/-- A plain `Codec` reading one-element documents: `<SessionIndex>` for a
logout request, `<user>` for a service response. -/
def plainCodec : Codec where
  ParseServiceResponse body :=
    match between "<user>" "</user>" body with
    | some u => .ok (some { User := u })
    | none => .error "cas: malformed service response"
  parseLogoutRequest raw :=
    match between "<SessionIndex>" "</SessionIndex>" raw with
    | some t => .ok { SessionIndex := t }
    | none => .error "cas: malformed logout request"
  sanitisedURLString u := plainLib.urlString { u with User := none }

/-- The default URL scheme over `plainLib`. -/
def plainScheme (base : URL) : URLScheme :=
  (NewDefaultURLScheme plainLib base).toURLScheme plainLib

/-- The CAS base URL of the examples. -/
def casBase : URL := { Scheme := "https", Host := "cas.example.org", Path := "/cas" }

/-- The default proxy settings: proxy tickets are not requested. -/
def plainProxy : Proxy := { urlScheme := plainScheme casBase }

/-- A client with the default in-memory stores, as built by `NewClient`. -/
def memoryClient : Client MemoryStore MemorySessionStore where
  tickets := memoryTicketStore
  sessions := memorySessionStore
  urlScheme := plainScheme casBase
  stValidator := { casURL := casBase }
  proxy := plainProxy

/-! ## Example inputs -/

/-- The authentication response of the user `carol`. -/
def carol : AuthenticationResponse := { User := "carol" }

/-- A request for `http://app/` carrying the session cookie `s1`. -/
def cookieRequest : Request :=
  { Host := "app", URL := { Path := "/" }, Cookies := [(sessionCookieName, "s1")] }

/-- The same request with the query `?ticket=ST-1`. -/
def ticketRequest : Request :=
  { cookieRequest with Query := [("ticket", ["ST-1"])] }

/-- A provider whose `serviceValidate` endpoint accepts `ST-1` for `carol`;
every other request fails at the transport. -/
def carolNet : Transport := fun r =>
  if r.URL = "https://cas.example.org/cas/serviceValidate?service=http://app/&ticket=ST-1" then
    .ok { StatusCode := 200, Body := .ok "<user>carol</user>" }
  else .error "connection refused"

/-- A provider that is not reachable. -/
def downNet : Transport := fun _ => .error "connection refused"

/-- A CAS 1 provider that rejects `ST-1`: the REST ticket endpoints grant
`TGT-1` and `ST-1`, `validate` answers `no`, and every other endpoint
(`serviceValidate` included) is 404. -/
def cas1DenyNet : Transport := fun r =>
  if r.URL = "https://cas.example.org/cas/validate?service=http://app/&ticket=ST-1" then
    .ok { StatusCode := 200, Body := .ok "no\n\n" }
  else if r.Method = "POST" ∧ r.URL = "https://cas.example.org/cas/v1/tickets" then
    .ok { StatusCode := 201,
          Header := [("Location", ["https://cas.example.org/cas/v1/tickets/TGT-1"])],
          Body := .ok "" }
  else if r.Method = "POST" ∧ r.URL = "https://cas.example.org/cas/v1/tickets/TGT-1" then
    .ok { StatusCode := 200, Body := .ok "ST-1" }
  else .ok { StatusCode := 404, Body := .ok "" }

/-- A CAS 1 provider that rejects `ST-1` with the one-line answer `no`:
`validate` answers `no` and a single newline, every other endpoint is 404. -/
def cas1ShortNet : Transport := fun r =>
  if r.URL = "https://cas.example.org/cas/validate?service=http://app/&ticket=ST-1" then
    .ok { StatusCode := 200, Body := .ok "no\n" }
  else .ok { StatusCode := 404, Body := .ok "" }

/-- The session `s1` is bound to `ST-1`, which the ticket store no longer
holds. -/
def staleConn : Conn MemoryStore MemorySessionStore :=
  { tickets := [], sessions := [("s1", "ST-1")], r := cookieRequest }

/-- Empty stores and a request with cookie `s1` and `?ticket=ST-1`. -/
def ticketConn : Conn MemoryStore MemorySessionStore :=
  { tickets := [], sessions := [], r := ticketRequest }

/-- The stores after `ST-1` was validated for `carol` in session `s1`, and a
later request that still carries `?ticket=ST-1`. -/
def boundConn : Conn MemoryStore MemorySessionStore :=
  { tickets := [("ST-1", some carol)], sessions := [("s1", "ST-1")], r := ticketRequest }

/-- A REST client for the service `http://app/`, as built by `NewRestClient`. -/
def plainRestClient : RestClient where
  urlScheme := plainScheme casBase
  serviceURL := { Scheme := "http", Host := "app", Path := "/" }
  stValidator := { casURL := casBase }
  proxy := plainProxy

/-- A request for `http://app/` with Basic credentials. -/
def basicConn : RestConn :=
  { w := {}, r := { Host := "app", URL := { Path := "/" }, BasicAuth := some ("carol", "secret") } }

/-- A Single-Logout callback for `ST-42`, received while the ticket store
holds `ST-42` and the session `s1` is bound to it. -/
def logoutConn : Conn MemoryStore MemorySessionStore :=
  { tickets := [("ST-42", some carol)], sessions := [("s1", "ST-42")],
    r := { Method := "POST", Host := "app", URL := { Path := "/" },
           Header := [("Content-Type", ["application/x-www-form-urlencoded"])],
           PostForm := [("logoutRequest", ["<SessionIndex>ST-42</SessionIndex>"])] } }

/-- A Single-Logout callback whose `logoutRequest` is not a logout document. -/
def brokenLogoutConn : Conn MemoryStore MemorySessionStore :=
  { logoutConn with
    r := { logoutConn.r with PostForm := [("logoutRequest", ["ST-42"])] } }

/-- A provider whose every endpoint answers 500 with a diagnostic body. -/
def brokenNet : Transport := fun _ =>
  .ok { StatusCode := 500, Body := .ok "internal error" }

/-- The `serviceValidate` request for `ST-1` and the service `http://app/`. -/
def serviceValidateRequest : OutRequest :=
  { Method := "GET",
    URL := "https://cas.example.org/cas/serviceValidate?service=http://app/&ticket=ST-1",
    Header := [("User-Agent", [userAgent])] }

/-- The `validate` request for `ST-1` and the service `http://app/`. -/
def validateRequest : OutRequest :=
  { Method := "GET",
    URL := "https://cas.example.org/cas/validate?service=http://app/&ticket=ST-1",
    Header := [("User-Agent", [userAgent])] }

/-- A CAS 1 provider that accepts `ST-1` for `carol`: `validate` answers `yes`
and the user name, every other endpoint is 404. -/
def cas1CarolNet : Transport := fun r =>
  if r.URL = "https://cas.example.org/cas/validate?service=http://app/&ticket=ST-1" then
    .ok { StatusCode := 200, Body := .ok "yes\ncarol\n" }
  else .ok { StatusCode := 404, Body := .ok "" }

/-- The query holds the value under the key: one of the values of the
parameter `key` is `value`. -/
def Values.Has (v : Values) (key value : String) : Prop :=
  ∃ vs, v.lookup key = some vs ∧ value ∈ vs

/-- Proxy settings that request proxy-granting tickets, with the callback
`https://app/callback`. -/
def callbackProxy : Proxy :=
  { requestProxy := true,
    proxyCallbackURL := { Scheme := "https", Host := "app", Path := "/callback" },
    urlScheme := plainScheme casBase }

/-- The proxy callback `GET /?pgtIou=testIou&pgtId=testId`. -/
def callbackRequest : Request :=
  { Method := "GET", URL := { Path := "/", RawQuery := "pgtIou=testIou&pgtId=testId" },
    Query := [("pgtIou", ["testIou"]), ("pgtId", ["testId"])] }

/-- The proxy store after the callback delivered `PGT-1` for `PGTIOU-1`. -/
def correlatedStore : MemoryProxyStore := [("PGTIOU-1", "PGT-1")]

/-- A request of the session of `carol`, whose attached response carries the
proxy-granting ticket IOU `PGTIOU-1`. -/
def proxiedRequest : Request :=
  { Host := "app", URL := { Path := "/" }, ctxClient := true,
    ctxAuth := some (some { User := "carol", ProxyGrantingTicket := "PGTIOU-1" }) }

/-- The target service of the proxy ticket examples. -/
def targetService : URL := { Scheme := "http", Host := "backend", Path := "/service" }

/-- A provider whose `proxy` endpoint refuses: 200 with a `proxyFailure`
envelope. -/
def proxyFailureNet : Transport := fun _ =>
  .ok { StatusCode := 200, Body := .ok "<proxyFailure>INVALID_TICKET</proxyFailure>" }

/-- A provider whose `proxy` endpoint grants `PT-1`. -/
def proxySuccessNet : Transport := fun _ =>
  .ok { StatusCode := 200,
        Body := .ok "<proxySuccess><proxyTicket>PT-1</proxyTicket></proxySuccess>" }

/-- A provider whose ticket endpoint answers 201 without a `Location`
header. -/
def noLocationNet : Transport := fun _ =>
  .ok { StatusCode := 201, Body := .ok "" }

/-- A request for `/orders?id=7` received over TLS behind a reverse proxy that
forwards the host `shop.example.org`. -/
def forwardedRequest : Request :=
  { Host := "10.0.0.7:8080", TLS := true, URL := { Path := "/orders", RawQuery := "id=7" },
    Header := [("X-Forwarded-Host", ["shop.example.org"])],
    Query := [("id", ["7"])] }

/-- A session store whose `Get` finds nothing for a session id after its
`Delete`. -/
def SessionStore.DeleteRemoves {ς : Type} (S : SessionStore ς) : Prop :=
  ∀ st id, S.Get (S.Delete st id) id = none

/-- The ticket store holds `ST-1` for `carol`, the session `s1` is bound to it,
and a request of the session arrives. -/
def sessionConn : Conn MemoryStore MemorySessionStore :=
  { tickets := [("ST-1", some carol)], sessions := [("s1", "ST-1")], r := cookieRequest }

/-- A CAS 1 provider whose `validate` endpoint answers 200 with an empty body;
every other endpoint is 404. -/
def cas1EmptyNet : Transport := fun r =>
  if r.URL = "https://cas.example.org/cas/validate?service=http://app/&ticket=ST-1" then
    .ok { StatusCode := 200, Body := .ok "" }
  else .ok { StatusCode := 404, Body := .ok "" }

/-- A CAS 1 provider whose `validate` endpoint answers `yes` and a newline,
with no user name; every other endpoint is 404. -/
def cas1BareYesNet : Transport := fun r =>
  if r.URL = "https://cas.example.org/cas/validate?service=http://app/&ticket=ST-1" then
    .ok { StatusCode := 200, Body := .ok "yes\n" }
  else .ok { StatusCode := 404, Body := .ok "" }

/-- The character `newSessionID` writes for the byte `v`:
`alphabet[v % len(alphabet)]`. -/
def sessionChar (v : Nat) : Char :=
  sessionAlphabet.data.getD ((v % 256) % (sessionAlphabet.length % 256)) 'a'

/-- The number of byte values, out of the 256, that `newSessionID` maps to the
character `ch`. -/
def sessionCharPreimages (ch : Char) : Nat :=
  ((List.range 256).filter fun v => sessionChar v = ch).length

/-! ## `net/url`, for the round trip of `requestURL` -/

/-- Go `getScheme` of `net/url`, scanning the characters after `seen` (kept in
reverse): the scheme before the first `:` when every character before it is a
letter or, after the first, a digit, `+`, `-` or `.`; no scheme at the first
other character; an error when the string starts with `:`. -/
def getSchemeFrom (rawURL : List Char) : List Char → List Char → Except GoError (String × String)
  | [], _ => .ok ("", String.mk rawURL)
  | ch :: rest, seen =>
    if ch.isAlpha then getSchemeFrom rawURL rest (ch :: seen)
    else if ch.isDigit ∨ ch = '+' ∨ ch = '-' ∨ ch = '.' then
      if seen = [] then .ok ("", String.mk rawURL)
      else getSchemeFrom rawURL rest (ch :: seen)
    else if ch = ':' then
      if seen = [] then .error "missing protocol scheme"
      else .ok (String.mk seen.reverse, String.mk rest)
    else .ok ("", String.mk rawURL)

/-- Go `getScheme` of `net/url`: the scheme and the rest of the string. -/
def getScheme (rawURL : String) : Except GoError (String × String) :=
  getSchemeFrom rawURL.data rawURL.data []

/-- Go `url.Parse`, projected on the fields of `URL` (the fragment after `#` and
the opaque part of a rootless URL with a scheme are not carried). The steps are
those of `net/url`: the scheme, the query after the first `?`, the authority
after a leading `//` (user information before the last `@`), and the path. The
embedding is exact on strings without `%`: the path and the host are taken as
written, and the validity checks of `parseHost` on IPv6 literals and ports are
not modelled. -/
def netUrlParse (rawURL : String) : Except GoError URL :=
  let u := rawURL.data.takeWhile fun ch => ch ≠ '#'
  if u.any (fun ch => ch.toNat < 32 ∨ ch.toNat = 127) then
    .error "net/url: invalid control character in URL"
  else if u = ['*'] then .ok { Path := "*" }
  else
    match getScheme (String.mk u) with
    | .error e => .error e
    | .ok (scheme0, rest0) =>
      let scheme := String.mk (scheme0.data.map Char.toLower)
      let forceQuery := rest0.data.getLast? = some '?' ∧ rest0.data.count '?' = 1
      let rest1 := if forceQuery then rest0.data.dropLast
        else rest0.data.takeWhile fun ch => ch ≠ '?'
      let rawQuery := if forceQuery then []
        else (rest0.data.dropWhile fun ch => ch ≠ '?').drop 1
      if rest1.head? ≠ some '/' ∧ scheme ≠ "" then
        .ok { Scheme := scheme, RawQuery := String.mk rawQuery }
      else if rest1.head? ≠ some '/' ∧ ':' ∈ rest1.takeWhile (fun ch => ch ≠ '/') then
        .error "first path segment in URL cannot contain colon"
      else if (scheme ≠ "" ∨ ¬ ['/', '/', '/'].isPrefixOf rest1) ∧
          ['/', '/'].isPrefixOf rest1 then
        let authority := (rest1.drop 2).takeWhile fun ch => ch ≠ '/'
        let path := (rest1.drop 2).dropWhile fun ch => ch ≠ '/'
        let afterAt := (authority.reverse.takeWhile fun ch => ch ≠ '@').reverse
        let user : Option String :=
          if '@' ∈ authority then
            some (String.mk (authority.take (authority.length - afterAt.length - 1)))
          else none
        .ok { Scheme := scheme, User := user, Host := String.mk afterAt,
              Path := String.mk path, RawQuery := String.mk rawQuery }
      else
        .ok { Scheme := scheme, Path := String.mk rest1, RawQuery := String.mk rawQuery }

/-- Go `(*url.URL).String` for a URL whose fields outside `URL` are zero (no
opaque part, no raw path, no fragment): the scheme and `:`, then `//`, the user
information and the host when there is a scheme, a host or user information,
then the path and, when it is not empty, `?` and the raw query. The embedding
is exact on a host and a path that need no escaping. -/
def netUrlString (u : URL) : String :=
  let scheme := if u.Scheme ≠ "" then u.Scheme ++ ":" else ""
  let authority :=
    if u.Scheme ≠ "" ∨ u.Host ≠ "" ∨ u.User ≠ none then
      (if u.Host ≠ "" ∨ u.Path ≠ "" ∨ u.User ≠ none then "//" else "") ++
        (match u.User with
          | some ui => ui ++ "@"
          | none => "") ++ u.Host
    else ""
  let slash :=
    if u.Path ≠ "" ∧ u.Path.data.head? ≠ some '/' ∧ u.Host ≠ "" then "/" else ""
  let buf := scheme ++ authority ++ slash
  let dot :=
    if buf = "" ∧ ':' ∈ u.Path.data.takeWhile (fun ch => ch ≠ '/') then "./" else ""
  buf ++ dot ++ u.Path ++ (if u.RawQuery ≠ "" then "?" ++ u.RawQuery else "")

/-- The library of the examples with `url.Parse` and `URL.String` as embedded
from `net/url`. -/
def netLib : Lib :=
  { plainLib with urlParse := netUrlParse, urlString := netUrlString }

/-- The request `GET //foo/bar?id=7` for the host `app`: `ParseRequestURI`
reads a request target without a scheme as a path, so the path of the request
URL is `//foo/bar`. -/
def doubleSlashRequest : Request :=
  { Host := "app", URL := { Path := "//foo/bar", RawQuery := "id=7" },
    Query := [("id", ["7"])] }

/-- Go `shouldEscape(c, encodePath)` of `net/url`, negated: the characters that
`EscapedPath` writes as they are, which are the letters, the digits and
`-_.~$&+,/:;=@`. -/
def unescapedInPath (ch : Char) : Bool :=
  ch.isAlphanum ||
    ch ∈ ['-', '_', '.', '~', '$', '&', '+', ',', '/', ':', ';', '=', '@']

/-! ## Store laws -/

section
variable {τ ς : Type}

/-- A ticket store reads back what a successful `Write` stored. -/
def TicketStore.ReadsWrites (T : TicketStore τ) : Prop :=
  ∀ st id v, (T.Write st id v).2 = none → T.Read (T.Write st id v).1 id = .ok v

/-- A session store returns the ticket last `Set` for a session id. -/
def SessionStore.GetsSets (S : SessionStore ς) : Prop :=
  ∀ st id ticket, S.Get (S.Set st id ticket) id = some ticket

/-- A ticket store whose `Delete` reports no error, whether or not the ticket
is present, and after which `Read` of that ticket fails. -/
def TicketStore.DeleteRemoves (T : TicketStore τ) : Prop :=
  ∀ st id, (T.Delete st id).2 = none ∧ ∃ e, T.Read (T.Delete st id).1 id = .error e

end

/-! # Theorems -/

section
variable {τ ς : Type}

/-! ## Stores -/

theorem lookup_filter_ne {β : Type} (m : List (String × β)) (id : String) :
    (m.filter (fun p => p.1 ≠ id)).lookup id = none := by
  simp only [List.lookup_eq_none_iff, List.mem_filter]
  intro a hab
  have h : a.1 ≠ id := by simpa using hab.2
  simpa using fun h2 => h h2.symm

theorem memoryTicketStore_readsWrites : memoryTicketStore.ReadsWrites := by
  intro st id v _
  simp [memoryTicketStore, MemoryStore.Write, MemoryStore.Read]

theorem memorySessionStore_getsSets : memorySessionStore.GetsSets := by
  intro st id ticket
  simp [memorySessionStore, MemorySessionStore.Set, MemorySessionStore.Get]

theorem memoryTicketStore_deleteRemoves : memoryTicketStore.DeleteRemoves := by
  intro st id
  refine ⟨rfl, "cas: ticket store: ticket not found", ?_⟩
  show MemoryStore.Read (st.filter (fun p => p.1 ≠ id)) id = _
  unfold MemoryStore.Read
  rw [lookup_filter_ne]

/-! ## Session resolution -/

theorem getCookie_keeps_request (lib : Lib) (c : Client τ ς) (rnd : Nat → Nat)
    (w : ResponseWriter) (r : Request) :
    (c.getCookie rnd w r).2.2.Query = r.Query ∧
    requestURL lib (c.getCookie rnd w r).2.2 = requestURL lib r ∧
    (c.getCookie rnd w r).2.2.ctxAuth = r.ctxAuth := by
  unfold Client.getCookie
  cases r.Cookie sessionCookieName <;> simp [Request.AddCookie, requestURL]

theorem Request.Cookie_name (r : Request) (name : String) (ck : Cas.Cookie)
    (h : r.Cookie name = some ck) : ck.Name = name := by
  unfold Request.Cookie at h
  cases hf : r.Cookies.find? (fun p => p.1 = name) with
  | none => simp [hf] at h
  | some p =>
    have hp := List.find?_some hf
    simp only [hf, Option.some.injEq] at h
    subst h
    simpa using hp

/-- C1. A request that carries the cookie of a session bound to a ticket the
ticket store can no longer read, and no `ticket` query parameter, leaves
`getSession` without an authentication response attached (`IsAuthenticated` is
false) and with the session cookie set again on the response with
`MaxAge = -1`. -/
theorem getSession_deleted_ticket_expires_cookie (lib : Lib) (codec : Codec) (net : Transport)
    (c : Client τ ς) (rnd : Nat → Nat) (x : Conn τ ς) (ck : Cookie) (t : String) (e : GoError)
    (hcookie : x.r.Cookie sessionCookieName = some ck)
    (hbound : c.sessions.Get x.sessions ck.Value = some t)
    (hread : c.tickets.Read x.tickets t = .error e)
    (hticket : x.r.Query.Get "ticket" = "")
    (hfresh : getAuthenticationResponse x.r = none) :
    (c.getSession lib codec net rnd x).2 = none ∧
    getAuthenticationResponse (c.getSession lib codec net rnd x).1.r = none ∧
    IsAuthenticated (c.getSession lib codec net rnd x).1.r = false ∧
    (c.getSession lib codec net rnd x).1.w.SetCookies =
      x.w.SetCookies ++ [{ ck with MaxAge := -1 }] ∧
    ck.Name = sessionCookieName := by
  have hname := Request.Cookie_name x.r sessionCookieName ck hcookie
  simp [Client.getSession, Client.getCookie, hcookie, hbound, hread, hticket, hfresh,
    IsAuthenticated, clearCookie, httpSetCookie, hname]

/-- Witness of C1: session `s1` bound to the deleted ticket `ST-1`. -/
theorem getSession_deleted_ticket_expires_cookie_witness :
    (memoryClient.getSession plainLib plainCodec downNet (fun _ => 0) staleConn).2 = none ∧
    getAuthenticationResponse
      (memoryClient.getSession plainLib plainCodec downNet (fun _ => 0) staleConn).1.r = none ∧
    IsAuthenticated
      (memoryClient.getSession plainLib plainCodec downNet (fun _ => 0) staleConn).1.r = false ∧
    (memoryClient.getSession plainLib plainCodec downNet (fun _ => 0) staleConn).1.w.SetCookies =
      staleConn.w.SetCookies ++
        [{ Name := sessionCookieName, Value := "s1", MaxAge := -1 }] :=
  have h := getSession_deleted_ticket_expires_cookie plainLib plainCodec downNet memoryClient (fun _ => 0)
    staleConn { Name := sessionCookieName, Value := "s1" } "ST-1"
    "cas: ticket store: ticket not found" (by decide) (by decide) (by rfl) (by decide)
    (by decide)
  ⟨h.1, h.2.1, h.2.2.1, h.2.2.2.1⟩

/-- C2. A request with session cookie `s` (the value of `ck`) that has no
usable binding and a non-empty `ticket` parameter `t` the validator accepts
with response `a`: after `getSession` the ticket store maps `t` to `a`, the
session store maps `s` to `t`, and the request carries `a`
(`Username(r) == a.User`). Every later request with cookie `s`, with `s` bound
to `t` and `t` readable, gets the stored response attached and no request is
sent to the identity provider, whatever its `ticket` parameter. The stores are
any stores that read back what was written; the write of the ticket is assumed
to report no error. -/
theorem getSession_validates_binds_then_reuses (lib : Lib) (codec : Codec) (net : Transport)
    (c : Client τ ς) (rnd : Nat → Nat) (x : Conn τ ς) (ck : Cookie) (t : String) (u : URL)
    (a : AuthenticationResponse)
    (hT : c.tickets.ReadsWrites) (hS : c.sessions.GetsSets)
    (hcookie : x.r.Cookie sessionCookieName = some ck)
    (hnobind : ∀ t0, c.sessions.Get x.sessions ck.Value = some t0 →
      ∃ e, c.tickets.Read x.tickets t0 = .error e)
    (hticket : x.r.Query.Get "ticket" = t) (hne : t ≠ "")
    (hurl : requestURL lib x.r = .ok u)
    (hval : (c.stValidator.ValidateTicket lib codec net u t c.proxy).result = .ok (some a))
    (hwrite : (c.tickets.Write x.tickets t (some a)).2 = none) :
    ((c.getSession lib codec net rnd x).2 = none ∧
      c.tickets.Read (c.getSession lib codec net rnd x).1.tickets t = .ok (some a) ∧
      c.sessions.Get (c.getSession lib codec net rnd x).1.sessions ck.Value = some t ∧
      getAuthenticationResponse (c.getSession lib codec net rnd x).1.r = some a ∧
      Username (c.getSession lib codec net rnd x).1.r = a.User) ∧
    ∀ (net2 : Transport) (rnd2 : Nat → Nat) (y : Conn τ ς) (ck2 : Cookie),
      y.r.Cookie sessionCookieName = some ck2 → ck2.Value = ck.Value →
      c.sessions.Get y.sessions ck.Value = some t →
      c.tickets.Read y.tickets t = .ok (some a) →
      (c.getSession lib codec net2 rnd2 y).2 = none ∧
      getAuthenticationResponse (c.getSession lib codec net2 rnd2 y).1.r = some a ∧
      Username (c.getSession lib codec net2 rnd2 y).1.r = a.User ∧
      (c.getSession lib codec net2 rnd2 y).1.sent = y.sent := by
  obtain ⟨st, hst⟩ : ∃ st, c.tickets.Write x.tickets t (some a) = (st, none) :=
    ⟨_, Prod.ext rfl hwrite⟩
  have hR : c.tickets.Read st t = .ok (some a) := by
    have h := hT x.tickets t (some a) hwrite
    rwa [hst] at h
  refine ⟨?_, ?_⟩
  · cases hg : c.sessions.Get x.sessions ck.Value with
    | none =>
      simp [Client.getSession, Client.getCookie, hcookie, hg, hticket, hne,
        Client.validateTicket, hurl, hval, hst, hR, Client.setSession, hS x.sessions ck.Value t,
        getAuthenticationResponse, setAuthenticationResponse, Username]
    | some t0 =>
      obtain ⟨e, he⟩ := hnobind t0 hg
      simp [Client.getSession, Client.getCookie, hcookie, hg, he, hticket, hne,
        Client.validateTicket, hurl, hval, hst, hR, Client.setSession, hS x.sessions ck.Value t,
        getAuthenticationResponse, setAuthenticationResponse, Username]
  · intro net2 rnd2 y ck2 hck2 hv hb hr
    rw [← hv] at hb
    simp [Client.getSession, Client.getCookie, hck2, hb, hr, getAuthenticationResponse,
      setAuthenticationResponse, Username]

/-- Witness of C2: `ST-1` is validated for `carol` in session `s1`; a later
request of the session is served from the stores with the provider down. -/
theorem getSession_validates_binds_then_reuses_witness :
    (memoryClient.getSession plainLib plainCodec carolNet (fun _ => 0) ticketConn).2 = none ∧
    memoryClient.tickets.Read
      (memoryClient.getSession plainLib plainCodec carolNet (fun _ => 0) ticketConn).1.tickets
      "ST-1" = .ok (some carol) ∧
    memoryClient.sessions.Get
      (memoryClient.getSession plainLib plainCodec carolNet (fun _ => 0) ticketConn).1.sessions
      "s1" = some "ST-1" ∧
    Username (memoryClient.getSession plainLib plainCodec carolNet (fun _ => 0) ticketConn).1.r
      = "carol" ∧
    Username (memoryClient.getSession plainLib plainCodec downNet (fun _ => 1) boundConn).1.r
      = "carol" ∧
    (memoryClient.getSession plainLib plainCodec downNet (fun _ => 1) boundConn).1.sent = [] :=
  have h := getSession_validates_binds_then_reuses plainLib plainCodec carolNet memoryClient
    (fun _ => 0) ticketConn { Name := sessionCookieName, Value := "s1" } "ST-1"
    { Scheme := "http", Host := "app", Path := "/" } carol
    memoryTicketStore_readsWrites memorySessionStore_getsSets (by decide)
    (fun _ h0 => nomatch h0) (by decide) (by decide) (by rfl) (by rfl)
    (by rfl)
  have h2 := h.2 downNet (fun _ => 1) boundConn { Name := sessionCookieName, Value := "s1" }
    (by decide) rfl (by rfl) (by rfl)
  ⟨h.1.1, h.1.2.1, h.1.2.2.1, h.1.2.2.2.2, h2.2.2.1, h2.2.2.2⟩

/-- C3. A request with a non-empty `ticket` parameter `t` whose validation
returns an error (the request URL does not resolve, or `ValidateTicket` returns
a transport or protocol error), and whose session has no usable binding:
`getSession` returns normally, attaches no authentication response
(`IsAuthenticated` is false), leaves the ticket store as it was and adds no
session binding. -/
theorem getSession_validation_error_continues (lib : Lib) (codec : Codec) (net : Transport)
    (c : Client τ ς) (rnd : Nat → Nat) (x : Conn τ ς) (t : String)
    (hticket : x.r.Query.Get "ticket" = t) (hne : t ≠ "")
    (hnobind : ∀ t0, c.sessions.Get x.sessions (c.getCookie rnd x.w x.r).1.Value = some t0 →
      ∃ e, c.tickets.Read x.tickets t0 = .error e)
    (hval : ∀ u, requestURL lib x.r = .ok u →
      ∃ e, (c.stValidator.ValidateTicket lib codec net u t c.proxy).result = .error (.err e))
    (hfresh : getAuthenticationResponse x.r = none) :
    (c.getSession lib codec net rnd x).2 = none ∧
    getAuthenticationResponse (c.getSession lib codec net rnd x).1.r = none ∧
    IsAuthenticated (c.getSession lib codec net rnd x).1.r = false ∧
    (c.getSession lib codec net rnd x).1.tickets = x.tickets ∧
    (c.getSession lib codec net rnd x).1.sessions = x.sessions := by
  obtain ⟨hq, hu, hc⟩ := getCookie_keeps_request lib c rnd x.w x.r
  rcases hgc : c.getCookie rnd x.w x.r with ⟨cookie, w0, r0⟩
  rw [hgc] at hq hu hc hnobind
  simp only at hq hu hc hnobind
  have hf : getAuthenticationResponse r0 = none := by
    simpa [getAuthenticationResponse, hc] using hfresh
  have hv : ∀ (xx : Conn τ ς), xx.r = r0 →
      (∃ e, Client.validateTicket lib codec net c t xx = (xx, .error (.err e))) ∨
      ∃ e, Client.validateTicket lib codec net c t xx =
        ({ xx with sent := xx.sent ++
            (c.stValidator.ValidateTicket lib codec net
              (match requestURL lib x.r with | .ok u => u | .error _ => {}) t c.proxy).sent },
          .error (.err e)) := by
    intro xx hxx
    unfold Client.validateTicket
    rw [hxx, hu]
    cases hr : requestURL lib x.r with
    | error e => exact Or.inl ⟨e, rfl⟩
    | ok u =>
      obtain ⟨e, he⟩ := hval u hr
      exact Or.inr ⟨e, by simp [he]⟩
  unfold Client.getSession
  rw [hgc]
  simp only [hq, hticket, hne, ne_eq, not_false_eq_true, ↓reduceIte]
  cases hg : c.sessions.Get x.sessions cookie.Value with
  | none =>
    rcases hv { x with w := w0, r := r0 } rfl with ⟨e, he⟩ | ⟨e, he⟩ <;>
      simp [he, hf, IsAuthenticated]
  | some t0 =>
    obtain ⟨e0, he0⟩ := hnobind t0 hg
    rcases hv { x with w := clearCookie w0 cookie, r := r0 } rfl with ⟨e, he⟩ | ⟨e, he⟩ <;>
      simp [he0, he, hf, IsAuthenticated]

/-- Witness of C3: the request presents `ST-1` while the provider is down. -/
theorem getSession_validation_error_continues_witness :
    ticketConn.r.Query.Get "ticket" = "ST-1" ∧
    (memoryClient.getSession plainLib plainCodec downNet (fun _ => 0) ticketConn).2 = none ∧
    getAuthenticationResponse
      (memoryClient.getSession plainLib plainCodec downNet (fun _ => 0) ticketConn).1.r = none ∧
    IsAuthenticated
      (memoryClient.getSession plainLib plainCodec downNet (fun _ => 0) ticketConn).1.r = false ∧
    (memoryClient.getSession plainLib plainCodec downNet (fun _ => 0) ticketConn).1.tickets =
      ticketConn.tickets ∧
    (memoryClient.getSession plainLib plainCodec downNet (fun _ => 0) ticketConn).1.sessions =
      ticketConn.sessions :=
  ⟨by decide,
    getSession_validation_error_continues plainLib plainCodec downNet memoryClient (fun _ => 0)
      ticketConn "ST-1" (by decide) (by decide) (fun _ h0 => nomatch h0)
      (fun _ _ => ⟨"connection refused", rfl⟩) (by decide)⟩

/-! ## The two middlewares -/

theorem ServeHTTP_singleLogout_skips_handler (lib : Lib) (codec : Codec) (net : Transport)
    (c : Client τ ς) (h : Conn τ ς → Conn τ ς) (rnd : Nat → Nat) (x : Conn τ ς)
    (hslo : isSingleLogoutRequest (setClient x.r) = true) :
    (clientHandler.ServeHTTP lib codec net c h rnd x).calls = 0 ∧
    (clientHandler.ServeHTTP lib codec net c h rnd x).conn =
      clientHandler.performSingleLogout codec c { x with r := setClient x.r } := by
  simp [clientHandler.ServeHTTP, hslo]

theorem ServeHTTP_calls_handler_once (lib : Lib) (codec : Codec) (net : Transport)
    (c : Client τ ς) (h : Conn τ ς → Conn τ ς) (rnd : Nat → Nat) (x : Conn τ ς)
    (hslo : isSingleLogoutRequest (setClient x.r) = false)
    (hok : (c.getSession lib codec net rnd { x with r := setClient x.r }).2 = none) :
    (clientHandler.ServeHTTP lib codec net c h rnd x).calls = 1 ∧
    (clientHandler.ServeHTTP lib codec net c h rnd x).conn =
      h (c.getSession lib codec net rnd { x with r := setClient x.r }).1 := by
  rcases hg : c.getSession lib codec net rnd { x with r := setClient x.r } with ⟨y, p⟩
  rw [hg] at hok
  simp only at hok
  subst hok
  simp [clientHandler.ServeHTTP, hslo, hg]

/-- C4, at two failing inputs: a request that is not a Single-Logout request
presents `ST-1`, and the provider has no `serviceValidate` endpoint (404).
When the CAS 1 endpoint answers `no` and one newline, the username slice
`body[4 : len(body)-1]` is out of range and validation panics. When it answers
`no` and two newlines, validation returns a nil response without error, the nil
response is written to the ticket store and bound to the session, and
`getSession` panics on `t.User`. In both cases the wrapped handler is not
invoked. -/
theorem ServeHTTP_panic_skips_handler (h : Conn MemoryStore MemorySessionStore →
    Conn MemoryStore MemorySessionStore) :
    isSingleLogoutRequest (setClient ticketConn.r) = false ∧
    (clientHandler.ServeHTTP plainLib plainCodec cas1ShortNet memoryClient h (fun _ => 0)
      ticketConn).calls = 0 ∧
    (clientHandler.ServeHTTP plainLib plainCodec cas1ShortNet memoryClient h (fun _ => 0)
      ticketConn).panicked = some "runtime error: slice bounds out of range" ∧
    (clientHandler.ServeHTTP plainLib plainCodec cas1DenyNet memoryClient h (fun _ => 0)
      ticketConn).calls = 0 ∧
    (clientHandler.ServeHTTP plainLib plainCodec cas1DenyNet memoryClient h (fun _ => 0)
      ticketConn).panicked = some nilDereference ∧
    (clientHandler.ServeHTTP plainLib plainCodec cas1DenyNet memoryClient h (fun _ => 0)
      ticketConn).conn.tickets = [("ST-1", none)] ∧
    (clientHandler.ServeHTTP plainLib plainCodec cas1DenyNet memoryClient h (fun _ => 0)
      ticketConn).conn.sessions = [("s1", "ST-1")] := by
  refine ⟨by decide, ?_, ?_, ?_, ?_, ?_, ?_⟩ <;> rfl

/-- C5, at the failing input: Basic credentials are accepted by the REST ticket
endpoints, and the service ticket is validated by a CAS 1 provider that answers
`no`. `authenticate` returns a nil response without error, so the wrapped
handler is invoked with a nil response attached: `IsAuthenticated` is false
and no 401 is written. -/
theorem restServeHTTP_cas1_no_reaches_handler :
    (restClientHandler.ServeHTTP plainLib plainCodec cas1DenyNet plainRestClient id
      basicConn).calls = 1 ∧
    (restClientHandler.ServeHTTP plainLib plainCodec cas1DenyNet plainRestClient id
      basicConn).passed.map IsAuthenticated = some false ∧
    (restClientHandler.ServeHTTP plainLib plainCodec cas1DenyNet plainRestClient id
      basicConn).conn.w.status = none ∧
    (restClientHandler.ServeHTTP plainLib plainCodec cas1DenyNet plainRestClient id
      basicConn).panicked = none := by
  decide

/-! ## Single Logout -/

/-- C6. A request is a Single-Logout request exactly when its method is
`POST`, its `Content-Type` header is exactly
`application/x-www-form-urlencoded`, and the `logoutRequest` form value
(`Request.FormValue`: the first `logoutRequest` value of the parsed form) is
not empty. -/
theorem isSingleLogoutRequest_iff (r : Request) :
    isSingleLogoutRequest r = true ↔
      r.Method = "POST" ∧
      r.Header.Get "Content-Type" = "application/x-www-form-urlencoded" ∧
      r.FormValue "logoutRequest" ≠ "" := by
  unfold isSingleLogoutRequest
  by_cases h1 : r.Method = "POST" <;>
    by_cases h2 : r.Header.Get "Content-Type" = "application/x-www-form-urlencoded" <;>
    by_cases h3 : r.FormValue "logoutRequest" = "" <;> simp [h1, h2, h3]

/-- C7, at the failing input: the ticket store holds `ST-42`, session `s1` is
bound to `ST-42`, and a logout request for `ST-42` arrives. The ticket is
deleted and the answer is 200, but `deleteSession` is called with the ticket
as key, so the session store still binds `s1` to `ST-42`. -/
theorem performSingleLogout_keeps_session_binding :
    plainCodec.parseLogoutRequest (logoutConn.r.FormValue "logoutRequest") =
      .ok { SessionIndex := "ST-42" } ∧
    (clientHandler.performSingleLogout plainCodec memoryClient logoutConn).w.status =
      some 200 ∧
    (clientHandler.performSingleLogout plainCodec memoryClient logoutConn).tickets = [] ∧
    memoryClient.sessions.Get
      (clientHandler.performSingleLogout plainCodec memoryClient logoutConn).sessions "s1" =
      some "ST-42" := by
  refine ⟨by rfl, by rfl, by rfl, by rfl⟩

/-- C8. Single Logout is idempotent: for a well-formed logout request with
`SessionIndex = t` and a ticket store whose `Delete` reports no error for
present and absent tickets alike, `performSingleLogout` answers 200 whatever
the ticket store holds, and so does processing the same request a second time
(on a fresh response writer `w2`); the ticket store does not hold `t` after
either. -/
theorem performSingleLogout_idempotent (codec : Codec) (c : Client τ ς) (x : Conn τ ς)
    (t : String) (w2 : ResponseWriter)
    (hD : c.tickets.DeleteRemoves)
    (hparse : codec.parseLogoutRequest (x.r.FormValue "logoutRequest") =
      .ok { SessionIndex := t })
    (hw : x.w.status = none) (hw2 : w2.status = none) :
    (clientHandler.performSingleLogout codec c x).w.status = some 200 ∧
    (∃ e, c.tickets.Read (clientHandler.performSingleLogout codec c x).tickets t = .error e) ∧
    (clientHandler.performSingleLogout codec c
      { clientHandler.performSingleLogout codec c x with w := w2 }).w.status = some 200 ∧
    (∃ e, c.tickets.Read (clientHandler.performSingleLogout codec c
      { clientHandler.performSingleLogout codec c x with w := w2 }).tickets t = .error e) := by
  have step : ∀ y : Conn τ ς, y.r = x.r → y.w.status = none →
      (clientHandler.performSingleLogout codec c y).w.status = some 200 ∧
      (∃ e, c.tickets.Read (clientHandler.performSingleLogout codec c y).tickets t = .error e) ∧
      (clientHandler.performSingleLogout codec c y).r = x.r := by
    intro y hr hs
    obtain ⟨hnone, e, he⟩ := hD y.tickets t
    obtain ⟨st, hst⟩ : ∃ st, c.tickets.Delete y.tickets t = (st, none) :=
      ⟨_, Prod.ext rfl hnone⟩
    rw [hst] at he
    simp [clientHandler.performSingleLogout, hr, hparse, hst, ResponseWriter.WriteHeader, hs, he]
  obtain ⟨h1, h2, h3⟩ := step x rfl hw
  obtain ⟨h4, h5, _⟩ := step { clientHandler.performSingleLogout codec c x with w := w2 } h3 hw2
  exact ⟨h1, h2, h4, h5⟩

/-- Witness of C8: the logout request for `ST-42`, processed twice. -/
theorem performSingleLogout_idempotent_witness :
    (clientHandler.performSingleLogout plainCodec memoryClient logoutConn).w.status =
      some 200 ∧
    (clientHandler.performSingleLogout plainCodec memoryClient
      { clientHandler.performSingleLogout plainCodec memoryClient logoutConn with
        w := {} }).w.status = some 200 :=
  have h := performSingleLogout_idempotent plainCodec memoryClient logoutConn "ST-42" {}
    memoryTicketStore_deleteRemoves (by rfl) (by rfl) (by rfl)
  ⟨h.1, h.2.2.1⟩

/-- C9. When the `logoutRequest` value does not parse, `performSingleLogout`
answers 500 on a fresh response writer, the body is the text of the parse
error (written by `http.Error`, which ends it with a newline), and neither
store is modified. -/
theorem performSingleLogout_parse_error (codec : Codec) (c : Client τ ς) (x : Conn τ ς)
    (e : GoError)
    (hparse : codec.parseLogoutRequest (x.r.FormValue "logoutRequest") = .error e)
    (hw : x.w.status = none) (hb : x.w.body = "") :
    (clientHandler.performSingleLogout codec c x).w.status = some 500 ∧
    (clientHandler.performSingleLogout codec c x).w.body = e ++ "\n" ∧
    (clientHandler.performSingleLogout codec c x).tickets = x.tickets ∧
    (clientHandler.performSingleLogout codec c x).sessions = x.sessions := by
  simp [clientHandler.performSingleLogout, hparse, httpError, ResponseWriter.Write,
    ResponseWriter.WriteHeader, hw, hb]

/-- Witness of C9: a `logoutRequest` that is not a logout document. -/
theorem performSingleLogout_parse_error_witness :
    (clientHandler.performSingleLogout plainCodec memoryClient brokenLogoutConn).w.status =
      some 500 ∧
    (clientHandler.performSingleLogout plainCodec memoryClient brokenLogoutConn).w.body =
      "cas: malformed logout request" ++ "\n" ∧
    (clientHandler.performSingleLogout plainCodec memoryClient brokenLogoutConn).tickets =
      brokenLogoutConn.tickets ∧
    (clientHandler.performSingleLogout plainCodec memoryClient brokenLogoutConn).sessions =
      brokenLogoutConn.sessions :=
  performSingleLogout_parse_error plainCodec memoryClient brokenLogoutConn
    "cas: malformed logout request" (by rfl) (by rfl) (by rfl)

/-! ## Ticket validation -/

/-- C10. `ValidateTicket` dispatches on the answer to the `serviceValidate`
request `r` (the URL `u` with the `User-Agent` header): on status 404 its result
is the result of `validateTicketCas1` for the same service URL and ticket; on
any other status different from 200, with body `body`, it is the error
`cas: validate ticket: ` followed by `body`, with no response; on status 200 it
is the result of `ParseServiceResponse` on the body; a transport error is
returned as the error, with no response, after that single request. -/
theorem ValidateTicket_dispatch (lib : Lib) (codec : Codec) (net : Transport)
    (validator : ServiceTicketValidator) (serviceURL : URL) (ticket : String) (proxy : Proxy)
    (u : String) (r0 : OutRequest)
    (hurl : validator.ServiceValidateUrl lib codec serviceURL ticket proxy = .ok u)
    (hreq : newRequest lib "GET" u = .ok r0) :
    (∀ resp, net { r0 with Header := r0.Header.Add "User-Agent" userAgent } = .ok resp →
      resp.StatusCode = 404 →
      (validator.ValidateTicket lib codec net serviceURL ticket proxy).result =
        (validator.validateTicketCas1 lib codec net serviceURL ticket).result) ∧
    (∀ resp body, net { r0 with Header := r0.Header.Add "User-Agent" userAgent } = .ok resp →
      resp.StatusCode ≠ 404 → resp.StatusCode ≠ 200 → resp.Body = .ok body →
      (validator.ValidateTicket lib codec net serviceURL ticket proxy).result =
        .error (.err ("cas: validate ticket: " ++ body)) ∧
      (validator.ValidateTicket lib codec net serviceURL ticket proxy).sent =
        [{ r0 with Header := r0.Header.Add "User-Agent" userAgent }]) ∧
    (∀ resp body, net { r0 with Header := r0.Header.Add "User-Agent" userAgent } = .ok resp →
      resp.StatusCode = 200 → resp.Body = .ok body →
      (validator.ValidateTicket lib codec net serviceURL ticket proxy).result =
        (match codec.ParseServiceResponse body with
          | .ok success => .ok success
          | .error e => .error (.err e)) ∧
      (validator.ValidateTicket lib codec net serviceURL ticket proxy).sent =
        [{ r0 with Header := r0.Header.Add "User-Agent" userAgent }]) ∧
    (∀ e, net { r0 with Header := r0.Header.Add "User-Agent" userAgent } = .error e →
      (validator.ValidateTicket lib codec net serviceURL ticket proxy).result =
        .error (.err e) ∧
      (validator.ValidateTicket lib codec net serviceURL ticket proxy).sent =
        [{ r0 with Header := r0.Header.Add "User-Agent" userAgent }]) := by
  refine ⟨?_, ?_, ?_, ?_⟩
  · intro resp hnet h404
    simp [ServiceTicketValidator.ValidateTicket, hurl, hreq, hnet, h404]
  · intro resp body hnet h404 h200 hbody
    simp [ServiceTicketValidator.ValidateTicket, hurl, hreq, hnet, h404, h200, hbody]
  · intro resp body hnet h200 hbody
    cases hp : codec.ParseServiceResponse body <;>
      simp [ServiceTicketValidator.ValidateTicket, hurl, hreq, hnet, h200, hbody, hp]
  · intro e hnet
    simp [ServiceTicketValidator.ValidateTicket, hurl, hreq, hnet]

/-- Witness of C10: `ST-1` for the service `http://app/` against a CAS 1
provider (404, then `no`), a failing provider (500), a provider that accepts
the ticket (200) and an unreachable one. -/
theorem ValidateTicket_dispatch_witness :
    (memoryClient.stValidator.ValidateTicket plainLib plainCodec cas1DenyNet
        plainRestClient.serviceURL "ST-1" plainProxy).result = .ok none ∧
    (memoryClient.stValidator.ValidateTicket plainLib plainCodec brokenNet
        plainRestClient.serviceURL "ST-1" plainProxy).result =
      .error (.err ("cas: validate ticket: " ++ "internal error")) ∧
    (memoryClient.stValidator.ValidateTicket plainLib plainCodec carolNet
        plainRestClient.serviceURL "ST-1" plainProxy).result = .ok (some carol) ∧
    (memoryClient.stValidator.ValidateTicket plainLib plainCodec downNet
        plainRestClient.serviceURL "ST-1" plainProxy).result = .error (.err "connection refused") ∧
    (memoryClient.stValidator.ValidateTicket plainLib plainCodec downNet
        plainRestClient.serviceURL "ST-1" plainProxy).sent = [serviceValidateRequest] :=
  have h := fun net => ValidateTicket_dispatch plainLib plainCodec net memoryClient.stValidator
    plainRestClient.serviceURL "ST-1" plainProxy serviceValidateRequest.URL
    { Method := "GET", URL := serviceValidateRequest.URL } (by rfl) (by rfl)
  ⟨((h cas1DenyNet).1 { StatusCode := 404, Body := .ok "" } (by rfl) (by rfl)).trans (by rfl),
    ((h brokenNet).2.1 { StatusCode := 500, Body := .ok "internal error" } "internal error"
      (by rfl) (by decide) (by decide) (by rfl)).1,
    ((h carolNet).2.2.1 { StatusCode := 200, Body := .ok "<user>carol</user>" }
      "<user>carol</user>" (by rfl) (by rfl) (by rfl)).1.trans (by rfl),
    ((h downNet).2.2.2 "connection refused" (by rfl)).1,
    ((h downNet).2.2.2 "connection refused" (by rfl)).2⟩

/-! ## CAS 1 plaintext answers -/

theorem goSlice_yes (user : String) :
    goSlice ("yes\n" ++ user ++ "\n") 4 ((("yes\n" ++ user ++ "\n").length : Int) - 1) =
      .ok user := by
  have e1 : "yes\n".length = 4 := rfl
  have e2 : "\n".length = 1 := rfl
  have hlen : ("yes\n" ++ user ++ "\n").length = user.length + 5 := by
    simp only [String.length_append, e1, e2]
    omega
  have hdata : ("yes\n" ++ user ++ "\n").data =
      'y' :: 'e' :: 's' :: '\n' :: (user.data ++ ['\n']) := by
    simp [String.data_append]
  unfold goSlice
  rw [hlen, hdata]
  have h1 : ((user.length + 5 : Nat) : Int) - 1 = ((user.length + 4 : Nat) : Int) := by
    push_cast; omega
  rw [h1]
  have h2 : (0 : Int) ≤ 4 ∧ (4 : Int) ≤ ((user.length + 4 : Nat) : Int) ∧
      ((user.length + 4 : Nat) : Int) ≤ ((user.length + 5 : Nat) : Int) := by
    refine ⟨by omega, by push_cast; omega, by push_cast; omega⟩
  rw [if_pos h2, Int.toNat_ofNat]
  have h4 : (4 : Int).toNat = 4 := rfl
  have h5 : user.length = user.data.length := rfl
  rw [h4, h5]
  simp [List.take_succ_cons]

theorem yes_body_ne_no (user : String) : "yes\n" ++ user ++ "\n" ≠ "no\n\n" := by
  intro h
  have hd := congrArg String.data h
  simp [String.data_append] at hd

/-- C11. On a 200 answer of the CAS 1 `validate` endpoint, the body `no`
followed by two newlines yields a nil response and no error; the body `yes`,
newline, `user`, newline yields, with no error, a response whose `User` is
`user` and whose other fields are all at their zero value. -/
theorem validateTicketCas1_plaintext (lib : Lib) (codec : Codec)
    (validator : ServiceTicketValidator) (serviceURL : URL) (ticket : String)
    (u : String) (r0 : OutRequest)
    (hurl : validator.ValidateUrl lib codec serviceURL ticket = .ok u)
    (hreq : newRequest lib "GET" u = .ok r0) :
    (∀ (net : Transport) (resp : HttpResponse),
      net { r0 with Header := r0.Header.Add "User-Agent" userAgent } = .ok resp →
      resp.StatusCode = 200 → resp.Body = .ok "no\n\n" →
      (validator.validateTicketCas1 lib codec net serviceURL ticket).result = .ok none) ∧
    (∀ (net : Transport) (resp : HttpResponse) (user : String),
      net { r0 with Header := r0.Header.Add "User-Agent" userAgent } = .ok resp →
      resp.StatusCode = 200 → resp.Body = .ok ("yes\n" ++ user ++ "\n") →
      (validator.validateTicketCas1 lib codec net serviceURL ticket).result =
        .ok (some { User := user, ProxyGrantingTicket := "", Attributes := none,
                    AuthenticationDate := 0, IsNewLogin := false,
                    IsRememberedLogin := false, MemberOf := none })) := by
  refine ⟨?_, ?_⟩
  · intro net resp hnet h200 hbody
    simp [ServiceTicketValidator.validateTicketCas1, hurl, hreq, hnet, h200, hbody]
  · intro net resp user hnet h200 hbody
    unfold ServiceTicketValidator.validateTicketCas1
    simp only [hurl, hreq, hnet, hbody]
    rw [if_neg (by simp [h200]), if_neg (yes_body_ne_no user), goSlice_yes]

/-- Witness of C11: `ST-1` for the service `http://app/`, against a CAS 1
provider that answers `no` and against one that answers `yes` for `carol`. -/
theorem validateTicketCas1_plaintext_witness :
    (memoryClient.stValidator.validateTicketCas1 plainLib plainCodec cas1DenyNet
        plainRestClient.serviceURL "ST-1").result = .ok none ∧
    (memoryClient.stValidator.validateTicketCas1 plainLib plainCodec cas1CarolNet
        plainRestClient.serviceURL "ST-1").result = .ok (some { User := "carol" }) :=
  have h := validateTicketCas1_plaintext plainLib plainCodec memoryClient.stValidator
    plainRestClient.serviceURL "ST-1" validateRequest.URL
    { Method := "GET", URL := validateRequest.URL } (by rfl) (by rfl)
  ⟨h.1 cas1DenyNet { StatusCode := 200, Body := .ok "no\n\n" } (by rfl) (by rfl) (by rfl),
    h.2 cas1CarolNet { StatusCode := 200, Body := .ok "yes\ncarol\n" } "carol" (by rfl)
      (by rfl) (by rfl)⟩

/-! ## Validation URLs -/

theorem Values.lookup_Add_self (v : Values) (k x : String) :
    ∃ vs, (Values.Add v k x).lookup k = some (vs ++ [x]) := by
  induction v with
  | nil => exact ⟨[], by simp [Values.Add]⟩
  | cons p rest ih =>
    obtain ⟨k0, vs0⟩ := p
    by_cases h : k0 = k
    · subst h
      exact ⟨vs0, by simp [Values.Add]⟩
    · obtain ⟨vs, hvs⟩ := ih
      have hb : (k == k0) = false := by simpa using fun h2 => h h2.symm
      exact ⟨vs, by simp [Values.Add, h, List.lookup_cons, hb, hvs]⟩

theorem Values.lookup_Add_ne (v : Values) (k x k2 : String) (hne : k2 ≠ k) :
    (Values.Add v k x).lookup k2 = v.lookup k2 := by
  induction v with
  | nil =>
    have hb : (k2 == k) = false := by simpa using hne
    simp [Values.Add, List.lookup_cons, hb]
  | cons p rest ih =>
    obtain ⟨k0, vs0⟩ := p
    by_cases h : k0 = k
    · subst h
      have hb : (k2 == k0) = false := by simpa using hne
      simp [Values.Add, List.lookup_cons, hb]
    · simp [Values.Add, h, List.lookup_cons, ih]

theorem Values.Has_Add_self (v : Values) (k x : String) : (Values.Add v k x).Has k x := by
  obtain ⟨vs, hvs⟩ := Values.lookup_Add_self v k x
  exact ⟨vs ++ [x], hvs, by simp⟩

theorem Values.Has_Add_ne (v : Values) (k x k2 y : String) (hne : k2 ≠ k)
    (h : v.Has k2 y) : (Values.Add v k x).Has k2 y := by
  obtain ⟨vs, hvs, hy⟩ := h
  exact ⟨vs, by rw [Values.lookup_Add_ne v k x k2 hne]; exact hvs, hy⟩

/-- C12. The URL built by `ServiceValidateUrl` is the resolution `u1` of the CAS
base path joined with `serviceValidate`, with as query the parameters of `u1`
to which are added `service` (the sanitised service URL), `ticket` (the ticket)
and, exactly when the proxy is enabled, `pgtUrl` (the sanitised callback URL).
The URL built by `ValidateUrl` is the resolution `u2` of the base path joined
with `validate`, with `service` and `ticket` added and no `pgtUrl`. The two
endpoints are assumed to carry no `pgtUrl` parameter of their own. -/
theorem validation_urls_parameters (lib : Lib) (codec : Codec)
    (validator : ServiceTicketValidator) (serviceURL : URL) (ticket : String) (proxy : Proxy)
    (u1 u2 : URL)
    (h1 : lib.urlResolve validator.casURL
      (lib.pathJoin validator.casURL.Path "serviceValidate") = .ok u1)
    (h2 : lib.urlResolve validator.casURL
      (lib.pathJoin validator.casURL.Path "validate") = .ok u2)
    (hq1 : (lib.parseQuery u1.RawQuery).lookup "pgtUrl" = none)
    (hq2 : (lib.parseQuery u2.RawQuery).lookup "pgtUrl" = none) :
    (∃ q : Values,
      validator.ServiceValidateUrl lib codec serviceURL ticket proxy =
        .ok (lib.urlString { u1 with RawQuery := lib.encode q }) ∧
      q.Has "service" (codec.sanitisedURLString serviceURL) ∧
      q.Has "ticket" ticket ∧
      ((q.lookup "pgtUrl").isSome = true ↔ proxy.IsEnabled = true) ∧
      (proxy.IsEnabled = true →
        q.Has "pgtUrl" (codec.sanitisedURLString proxy.GetProxyCallbackURL))) ∧
    (∃ q : Values,
      validator.ValidateUrl lib codec serviceURL ticket =
        .ok (lib.urlString { u2 with RawQuery := lib.encode q }) ∧
      q.Has "service" (codec.sanitisedURLString serviceURL) ∧
      q.Has "ticket" ticket ∧
      q.lookup "pgtUrl" = none) := by
  have hs : ∀ q0 : Values,
      ((q0.Add "service" (codec.sanitisedURLString serviceURL)).Add "ticket" ticket).Has
        "service" (codec.sanitisedURLString serviceURL) := fun q0 =>
    Values.Has_Add_ne _ _ _ _ _ (by decide) (Values.Has_Add_self _ _ _)
  have hp : ∀ q0 : Values, q0.lookup "pgtUrl" = none →
      ((q0.Add "service" (codec.sanitisedURLString serviceURL)).Add "ticket" ticket).lookup
        "pgtUrl" = none := fun q0 h0 => by
    rw [Values.lookup_Add_ne _ _ _ _ (by decide), Values.lookup_Add_ne _ _ _ _ (by decide), h0]
  refine ⟨?_, ?_⟩
  · cases he : proxy.IsEnabled with
    | false =>
      refine ⟨((lib.parseQuery u1.RawQuery).Add "service"
        (codec.sanitisedURLString serviceURL)).Add "ticket" ticket, ?_, hs _,
        Values.Has_Add_self _ _ _, ?_, ?_⟩
      · simp [ServiceTicketValidator.ServiceValidateUrl, h1, he]
      · simp [hp _ hq1]
      · intro h; cases h
    | true =>
      refine ⟨(((lib.parseQuery u1.RawQuery).Add "service"
        (codec.sanitisedURLString serviceURL)).Add "ticket" ticket).Add "pgtUrl"
        (codec.sanitisedURLString proxy.GetProxyCallbackURL), ?_, ?_, ?_, ?_, ?_⟩
      · simp [ServiceTicketValidator.ServiceValidateUrl, h1, he]
      · exact Values.Has_Add_ne _ _ _ _ _ (by decide) (hs _)
      · exact Values.Has_Add_ne _ _ _ _ _ (by decide) (Values.Has_Add_self _ _ _)
      · obtain ⟨vs, hvs⟩ := Values.lookup_Add_self
          ((Values.Add (lib.parseQuery u1.RawQuery) "service"
            (codec.sanitisedURLString serviceURL)).Add "ticket" ticket) "pgtUrl"
          (codec.sanitisedURLString proxy.GetProxyCallbackURL)
        simp [hvs]
      · intro _
        exact Values.Has_Add_self _ _ _
  · refine ⟨((lib.parseQuery u2.RawQuery).Add "service"
      (codec.sanitisedURLString serviceURL)).Add "ticket" ticket, ?_, hs _,
      Values.Has_Add_self _ _ _, hp _ hq2⟩
    simp [ServiceTicketValidator.ValidateUrl, h2]

/-- Witness of C12: the two validation URLs for `ST-1` and the service
`http://app/`, with a proxy that requests proxy-granting tickets. -/
theorem validation_urls_parameters_witness :
    (∃ q : Values,
      memoryClient.stValidator.ServiceValidateUrl plainLib plainCodec
          plainRestClient.serviceURL "ST-1" callbackProxy =
        .ok (plainLib.urlString
          { casBase with Path := "/cas/serviceValidate", RawQuery := plainLib.encode q }) ∧
      q.Has "service" (plainCodec.sanitisedURLString plainRestClient.serviceURL) ∧
      q.Has "ticket" "ST-1" ∧
      ((q.lookup "pgtUrl").isSome = true ↔ callbackProxy.IsEnabled = true) ∧
      (callbackProxy.IsEnabled = true →
        q.Has "pgtUrl" (plainCodec.sanitisedURLString callbackProxy.GetProxyCallbackURL))) ∧
    (∃ q : Values,
      memoryClient.stValidator.ValidateUrl plainLib plainCodec
          plainRestClient.serviceURL "ST-1" =
        .ok (plainLib.urlString
          { casBase with Path := "/cas/validate", RawQuery := plainLib.encode q }) ∧
      q.Has "service" (plainCodec.sanitisedURLString plainRestClient.serviceURL) ∧
      q.Has "ticket" "ST-1" ∧
      q.lookup "pgtUrl" = none) :=
  validation_urls_parameters plainLib plainCodec memoryClient.stValidator
    plainRestClient.serviceURL "ST-1" callbackProxy
    { casBase with Path := "/cas/serviceValidate" } { casBase with Path := "/cas/validate" }
    (by rfl) (by rfl) (by rfl) (by rfl)

/-! ## Proxy callback, proxy URL and proxy store -/

/-- C13. On a fresh response writer, `Proxy.Handle` answers every GET with
200; the store becomes the result of `Set(pgtIou, pgtId)` when both query
parameters are non-empty and is left as it was otherwise. Every other method
is answered 405 and leaves the store as it was. -/
theorem Proxy_Handle_callback {π : Type} (store : ProxyStore π) (p : Proxy) (st : π)
    (w : ResponseWriter) (r : Request) (hw : w.status = none) :
    (r.Method = "GET" →
      (p.Handle store st w r).2.status = some 200 ∧
      (r.Query.Get "pgtIou" ≠ "" ∧ r.Query.Get "pgtId" ≠ "" →
        (p.Handle store st w r).1 =
          (store.Set st (r.Query.Get "pgtIou") (r.Query.Get "pgtId")).1) ∧
      (¬ (r.Query.Get "pgtIou" ≠ "" ∧ r.Query.Get "pgtId" ≠ "") →
        (p.Handle store st w r).1 = st)) ∧
    (r.Method ≠ "GET" →
      (p.Handle store st w r).2.status = some 405 ∧ (p.Handle store st w r).1 = st) := by
  refine ⟨?_, ?_⟩
  · intro hget
    refine ⟨?_, ?_, ?_⟩
    · simp [Proxy.Handle, hget, ResponseWriter.WriteHeader, hw]
    · intro hboth
      simp [Proxy.Handle, hget, hboth.1, hboth.2]
    · intro hnot
      have hc : ¬ (r.Query.Get "pgtId" ≠ "" ∧ r.Query.Get "pgtIou" ≠ "") :=
        fun h => hnot ⟨h.2, h.1⟩
      simp only [Proxy.Handle, hget, ne_eq, not_true_eq_false, ↓reduceIte]
      rw [if_neg hc]
  · intro hne
    simp [Proxy.Handle, hne, httpError, ResponseWriter.Write, ResponseWriter.WriteHeader, hw]

/-- Witness of C13: the callback `GET /?pgtIou=testIou&pgtId=testId` on a new
in-memory store, and the same request sent with POST. -/
theorem Proxy_Handle_callback_witness :
    (plainProxy.Handle memoryProxyStore NewMemoryProxyStore {} callbackRequest).2.status =
      some 200 ∧
    memoryProxyStore.Get
      (plainProxy.Handle memoryProxyStore NewMemoryProxyStore {} callbackRequest).1 "testIou" =
      ("testId", true) ∧
    (plainProxy.Handle memoryProxyStore NewMemoryProxyStore {}
      { callbackRequest with Method := "POST" }).2.status = some 405 ∧
    (plainProxy.Handle memoryProxyStore NewMemoryProxyStore {}
      { callbackRequest with Method := "POST" }).1 = NewMemoryProxyStore :=
  have h1 := (Proxy_Handle_callback memoryProxyStore plainProxy NewMemoryProxyStore {}
    callbackRequest (by rfl)).1 (by rfl)
  have h2 := (Proxy_Handle_callback memoryProxyStore plainProxy NewMemoryProxyStore {}
    { callbackRequest with Method := "POST" } (by rfl)).2 (by decide)
  ⟨h1.1, (congrArg (fun s => memoryProxyStore.Get s "testIou")
      (h1.2.1 ⟨by decide, by decide⟩)).trans (by rfl), h2.1, h2.2⟩

theorem Values.lookup_Set_self (v : Values) (k x : String) :
    (Values.Set v k x).lookup k = some [x] := by
  induction v with
  | nil => simp [Values.Set]
  | cons p rest ih =>
    obtain ⟨k0, vs0⟩ := p
    by_cases h : k0 = k
    · subst h
      simp [Values.Set]
    · have hb : (k == k0) = false := by simpa using fun h2 => h h2.symm
      simp [Values.Set, h, List.lookup_cons, hb, ih]

theorem Values.lookup_Set_ne (v : Values) (k x k2 : String) (hne : k2 ≠ k) :
    (Values.Set v k x).lookup k2 = v.lookup k2 := by
  induction v with
  | nil =>
    have hb : (k2 == k) = false := by simpa using hne
    simp [Values.Set, List.lookup_cons, hb]
  | cons p rest ih =>
    obtain ⟨k0, vs0⟩ := p
    by_cases h : k0 = k
    · subst h
      have hb : (k2 == k0) = false := by simpa using hne
      simp [Values.Set, List.lookup_cons, hb]
    · simp [Values.Set, h, List.lookup_cons, ih]

/-- C14. When the proxy store has no entry for `pgtIou`, `GetProxyURL` returns
the empty string and `errProxyIouNotFound`. When the store maps `pgtIou` to
`pgt` and the URL scheme gives the proxy endpoint `casUrl`, it returns with no
error the string of `casUrl` whose query is the encoding of values in which
`targetService` is exactly the target service and `pgt` is exactly `pgt`. The
store state is only read: `GetProxyURL` performs no store operation other than
`Get` and returns no new store state. -/
theorem GetProxyURL_results {π : Type} (lib : Lib) (store : ProxyStore π) (p : Proxy) (st : π)
    (targetService pgtIou : String) :
    (∀ v, store.Get st pgtIou = (v, false) →
      p.GetProxyURL lib store st targetService pgtIou = ("", some errProxyIouNotFound)) ∧
    (∀ pgt casUrl, store.Get st pgtIou = (pgt, true) → p.urlScheme.Proxy = .ok casUrl →
      ∃ q : Values,
        p.GetProxyURL lib store st targetService pgtIou =
          (lib.urlString { casUrl with RawQuery := lib.encode q }, none) ∧
        q.lookup "targetService" = some [targetService] ∧
        q.lookup "pgt" = some [pgt] ∧
        q.Get "targetService" = targetService ∧
        q.Get "pgt" = pgt) := by
  refine ⟨?_, ?_⟩
  · intro v hv
    simp [Proxy.GetProxyURL, Proxy.GetProxyTgt, hv]
  · intro pgt casUrl hget hproxy
    have h1 : (((lib.parseQuery casUrl.RawQuery).Set "targetService" targetService).Set
        "pgt" pgt).lookup "targetService" = some [targetService] := by
      rw [Values.lookup_Set_ne _ _ _ _ (by decide), Values.lookup_Set_self]
    have h2 : (((lib.parseQuery casUrl.RawQuery).Set "targetService" targetService).Set
        "pgt" pgt).lookup "pgt" = some [pgt] := Values.lookup_Set_self _ _ _
    refine ⟨((lib.parseQuery casUrl.RawQuery).Set "targetService" targetService).Set
      "pgt" pgt, ?_, h1, h2, ?_, ?_⟩
    · simp [Proxy.GetProxyURL, Proxy.GetProxyTgt, hget, hproxy]
    · simp [Values.Get, h1]
    · simp [Values.Get, h2]

/-- Witness of C14: the proxy URL for the target `http://app/service`, with
the IOU `PGTIOU-1` correlated to `PGT-1`, and with an unknown IOU. -/
theorem GetProxyURL_results_witness :
    plainProxy.GetProxyURL plainLib memoryProxyStore correlatedStore "http://app/service"
      "PGTIOU-9" = ("", some errProxyIouNotFound) ∧
    (∃ q : Values,
      plainProxy.GetProxyURL plainLib memoryProxyStore correlatedStore "http://app/service"
        "PGTIOU-1" =
        (plainLib.urlString
          { casBase with Path := "/cas/proxy", RawQuery := plainLib.encode q }, none) ∧
      q.lookup "targetService" = some ["http://app/service"] ∧
      q.lookup "pgt" = some ["PGT-1"] ∧
      q.Get "targetService" = "http://app/service" ∧
      q.Get "pgt" = "PGT-1") :=
  have h := GetProxyURL_results plainLib memoryProxyStore plainProxy correlatedStore
    "http://app/service"
  ⟨(h "PGTIOU-9").1 "" (by rfl),
    (h "PGTIOU-1").2 "PGT-1" { casBase with Path := "/cas/proxy" } (by rfl) (by rfl)⟩

theorem lookup_filter_other {β : Type} (m : List (String × β)) (k k2 : String)
    (hne : k2 ≠ k) : (m.filter (fun p => p.1 ≠ k)).lookup k2 = m.lookup k2 := by
  induction m with
  | nil => rfl
  | cons p rest ih =>
    obtain ⟨k0, v0⟩ := p
    by_cases h : k0 = k
    · subst h
      have hb : (k2 == k0) = false := by simpa using hne
      simpa [List.filter_cons, List.lookup_cons, hb] using ih
    · cases hb : k2 == k0
      · simpa [List.filter_cons, h, List.lookup_cons, hb] using ih
      · simp [List.filter_cons, h, List.lookup_cons, hb]

theorem MemoryProxyStore.toFiniteMap_Set (m : MemoryProxyStore) (k v : String) :
    (MemoryProxyStore.Set m k v).1.toFiniteMap = FiniteMap.set m.toFiniteMap k v := by
  funext k2
  by_cases h : k2 = k
  · subst h
    simp [MemoryProxyStore.Set, MemoryProxyStore.toFiniteMap, FiniteMap.set]
  · have hb : (k2 == k) = false := by simpa using h
    have hl := lookup_filter_other m k k2 h
    simp only [MemoryProxyStore.Set, MemoryProxyStore.toFiniteMap, FiniteMap.set, h,
      List.lookup_cons, hb, if_false]
    exact hl

theorem MemoryProxyStore.toFiniteMap_Delete (m : MemoryProxyStore) (k : String) :
    (MemoryProxyStore.Delete m k).1.toFiniteMap = FiniteMap.delete m.toFiniteMap k := by
  funext k2
  by_cases h : k2 = k
  · subst h
    have hl := lookup_filter_ne m k2
    simp only [MemoryProxyStore.Delete, MemoryProxyStore.toFiniteMap, FiniteMap.delete,
      if_true]
    exact hl
  · have hl := lookup_filter_other m k k2 h
    simp only [MemoryProxyStore.Delete, MemoryProxyStore.toFiniteMap, FiniteMap.delete, h,
      if_false]
    exact hl

theorem MemoryProxyStore.Get_eq (m : MemoryProxyStore) (k : String) :
    MemoryProxyStore.Get m k = FiniteMap.get m.toFiniteMap k := rfl

/-- C15. `MemoryProxyStore` refines the finite map from IOU to PGT: a new store
is the empty map, `Get` is the lookup of the map, `Set`, `Delete` and `Clear`
are the update, removal and emptying of the map, and each of the three returns
a nil error. Hence a new store returns `("", false)` for every key; after
`Set(k, v)`, `Get(k)` returns `(v, true)`; after `Delete(k)` or `Clear()`,
`Get(k)` returns `("", false)`; and `Set(k, _)` and `Delete(k)` leave `Get` of
every other key as it was. -/
theorem MemoryProxyStore_refines_finite_map :
    (NewMemoryProxyStore.toFiniteMap = FiniteMap.empty ∧
      (∀ (m : MemoryProxyStore) (k : String),
        MemoryProxyStore.Get m k = FiniteMap.get m.toFiniteMap k) ∧
      (∀ (m : MemoryProxyStore) (k v : String),
        (MemoryProxyStore.Set m k v).1.toFiniteMap = FiniteMap.set m.toFiniteMap k v ∧
        (MemoryProxyStore.Set m k v).2 = none) ∧
      (∀ (m : MemoryProxyStore) (k : String),
        (MemoryProxyStore.Delete m k).1.toFiniteMap = FiniteMap.delete m.toFiniteMap k ∧
        (MemoryProxyStore.Delete m k).2 = none) ∧
      (∀ m : MemoryProxyStore,
        (MemoryProxyStore.Clear m).1.toFiniteMap = FiniteMap.empty ∧
        (MemoryProxyStore.Clear m).2 = none)) ∧
    ((∀ k : String, MemoryProxyStore.Get NewMemoryProxyStore k = ("", false)) ∧
      (∀ (m : MemoryProxyStore) (k v : String),
        MemoryProxyStore.Get (MemoryProxyStore.Set m k v).1 k = (v, true)) ∧
      (∀ (m : MemoryProxyStore) (k : String),
        MemoryProxyStore.Get (MemoryProxyStore.Delete m k).1 k = ("", false)) ∧
      (∀ (m : MemoryProxyStore) (k : String),
        MemoryProxyStore.Get (MemoryProxyStore.Clear m).1 k = ("", false)) ∧
      (∀ (m : MemoryProxyStore) (k v k2 : String), k2 ≠ k →
        MemoryProxyStore.Get (MemoryProxyStore.Set m k v).1 k2 = MemoryProxyStore.Get m k2 ∧
        MemoryProxyStore.Get (MemoryProxyStore.Delete m k).1 k2 =
          MemoryProxyStore.Get m k2)) := by
  refine ⟨⟨rfl, fun _ _ => rfl, fun m k v => ⟨MemoryProxyStore.toFiniteMap_Set m k v, rfl⟩,
    fun m k => ⟨MemoryProxyStore.toFiniteMap_Delete m k, rfl⟩, fun _ => ⟨rfl, rfl⟩⟩,
    fun _ => rfl, ?_, ?_, fun _ _ => rfl, ?_⟩
  · intro m k v
    rw [MemoryProxyStore.Get_eq, MemoryProxyStore.toFiniteMap_Set]
    simp [FiniteMap.get, FiniteMap.set]
  · intro m k
    rw [MemoryProxyStore.Get_eq, MemoryProxyStore.toFiniteMap_Delete]
    simp [FiniteMap.get, FiniteMap.delete]
  · intro m k v k2 hne
    simp only [MemoryProxyStore.Get_eq, MemoryProxyStore.toFiniteMap_Set,
      MemoryProxyStore.toFiniteMap_Delete]
    simp [FiniteMap.get, FiniteMap.set, FiniteMap.delete, hne]

/-- Witness of C15: the steps of `TestNewMemoryProxyStore`. -/
theorem MemoryProxyStore_refines_finite_map_witness :
    MemoryProxyStore.Get NewMemoryProxyStore "iou" = ("", false) ∧
    MemoryProxyStore.Get (MemoryProxyStore.Set NewMemoryProxyStore "iou" "pgt").1 "iou" =
      ("pgt", true) ∧
    MemoryProxyStore.Get (MemoryProxyStore.Delete
      (MemoryProxyStore.Set NewMemoryProxyStore "iou" "pgt").1 "iou").1 "iou" = ("", false) ∧
    MemoryProxyStore.Get (MemoryProxyStore.Clear
      (MemoryProxyStore.Set NewMemoryProxyStore "iou" "pgt").1).1 "iou" = ("", false) ∧
    MemoryProxyStore.Get (MemoryProxyStore.Set correlatedStore "iou" "pgt").1 "PGTIOU-1" =
      MemoryProxyStore.Get correlatedStore "PGTIOU-1" :=
  have h := MemoryProxyStore_refines_finite_map.2
  ⟨h.1 "iou", h.2.1 _ "iou" "pgt", h.2.2.1 _ "iou", h.2.2.2.1 _ "iou",
    (h.2.2.2.2 correlatedStore "iou" "pgt" "PGTIOU-1" (by decide)).1⟩

/-! ## Proxy tickets and granting tickets -/

theorem GetProxyTicket_after_fetch {π : Type} (lib : Lib) (net : Transport)
    (store : ProxyStore π) (c : Client τ ς) (st : π) (r : Request) (target : URL)
    (a : AuthenticationResponse) (url : String) (req : OutRequest) (resp : HttpResponse)
    (body : String)
    (hc : r.ctxClient = true) (ha : getAuthenticationResponse r = some a)
    (hpgt : a.ProxyGrantingTicket ≠ "")
    (hurl : c.proxy.GetProxyURL lib store st (lib.urlString target) a.ProxyGrantingTicket =
      (url, none))
    (hreq : newRequest lib "GET" url = .ok req) (hnet : net req = .ok resp)
    (hbody : resp.Body = .ok body) :
    (GetProxyTicket lib net store c st r target).2 =
      match (lib.xmlUnmarshalProxy body).Success with
      | none => .error (.runtimePanic nilDereference)
      | some success =>
        if success.ProxyTicket = "" then .error (.err errProxyTicketError)
        else .ok success.ProxyTicket := by
  simp only [GetProxyTicket, getClient, hc, ha, hpgt, hurl, httpGet, hreq, hnet, hbody,
    if_true, if_false]
  cases (lib.xmlUnmarshalProxy body).Success with
  | none => rfl
  | some success => by_cases h : success.ProxyTicket = "" <;> simp [h]

/-- C16, at the failing input: the proxy URL is resolved, the GET succeeds and
the body is a `proxyFailure` envelope, or is not an envelope at all. The
decoded response has a nil `Success`, and `GetProxyTicket` panics on
`proxyResponse.Success.ProxyTicket` instead of returning
`errProxyTicketError`. A `proxySuccess` envelope with a ticket returns the
ticket. -/
theorem GetProxyTicket_failure_envelope_panics :
    (plainLib.xmlUnmarshalProxy "<proxyFailure>INVALID_TICKET</proxyFailure>").Success =
      none ∧
    (GetProxyTicket plainLib proxyFailureNet memoryProxyStore memoryClient correlatedStore
      proxiedRequest targetService).2 = .error (.runtimePanic nilDereference) ∧
    (GetProxyTicket plainLib brokenNet memoryProxyStore memoryClient correlatedStore
      proxiedRequest targetService).2 = .error (.runtimePanic nilDereference) ∧
    (GetProxyTicket plainLib proxySuccessNet memoryProxyStore memoryClient correlatedStore
      proxiedRequest targetService).2 = .ok "PT-1" := by
  refine ⟨by rfl, by rfl, by rfl, by rfl⟩

theorem pathBase_ne_empty (path : String) : pathBase path ≠ "" := by
  unfold pathBase
  by_cases h : path = ""
  · simp [h]
  · simp only [h, if_false]
    split
    · decide
    · rename_i hl
      intro hmk
      exact hl (congrArg String.data hmk)

theorem RequestGrantingTicket_created (lib : Lib) (net : Transport) (c : RestClient)
    (username password : String) (endpoint : URL) (req : OutRequest) (resp : HttpResponse)
    (hend : c.urlScheme.RestGrantingTicket = .ok endpoint)
    (hreq : newRequest lib "POST" (lib.urlString endpoint) = .ok req)
    (hnet : net { req with
      Header := Values.Set req.Header "Content-Type" "application/x-www-form-urlencoded",
      Body := lib.encode
        (Values.Set (Values.Set [] "username" username) "password" password) } = .ok resp)
    (h201 : resp.StatusCode = 201) :
    (c.RequestGrantingTicket lib net username password).2 =
      .ok (pathBase (resp.Header.Get "Location")) := by
  simp [RestClient.RequestGrantingTicket, hend, postForm, hreq, hnet, h201, pathBase_ne_empty]

/-- C17, at the failing input: the ticket endpoint answers 201 without a
`Location` header. `path.Base` of the empty header value is `"."`, never the
empty string, so the check `tgt == ""` does not fire and the TGT `"."` is
returned with no error instead of the error
`does not return a valid location header`. -/
theorem RequestGrantingTicket_missing_location :
    ({ StatusCode := 201, Body := .ok "" } : HttpResponse).Header.Get "Location" = "" ∧
    pathBase "" = "." ∧
    (plainRestClient.RequestGrantingTicket plainLib noLocationNet "carol" "secret").2 =
      .ok "." ∧
    (plainRestClient.RequestGrantingTicket plainLib cas1DenyNet "carol" "secret").2 =
      .ok "TGT-1" ∧
    (plainRestClient.RequestGrantingTicket plainLib brokenNet "carol" "secret").2 =
      .error ("ticket endoint returned status code " ++ toString 500) := by
  refine ⟨by rfl, by rfl, by rfl, by rfl, by rfl⟩

/-! ## Request URL and request context -/

theorem requestURL_eq_of_parse (lib : Lib) (r : Request) (u0 : URL)
    (hparse : lib.urlParse (lib.urlString r.URL) = .ok u0) :
    requestURL lib r =
      .ok { Path := u0.Path, RawQuery := u0.RawQuery, User := u0.User,
            Host := (if r.Header.Get "X-Forwarded-Host" ≠ "" then
                r.Header.Get "X-Forwarded-Host"
              else r.Host),
            Scheme := (if r.Header.Get "X-Forwarded-Proto" ≠ "" then
                r.Header.Get "X-Forwarded-Proto"
              else if r.TLS = true then "https" else "http") } := by
  by_cases h1 : r.Header.Get "X-Forwarded-Host" = "" <;>
    by_cases h2 : r.Header.Get "X-Forwarded-Proto" = "" <;> cases h3 : r.TLS <;>
    simp [requestURL, hparse, h1, h2, h3]

theorem netUrlString_path_query (p q : String) (rest : List Char)
    (hp : p.data = '/' :: rest) :
    (netUrlString { Path := p, RawQuery := q }).data =
      p.data ++ (if q = "" then [] else '?' :: q.data) := by
  by_cases hq : q = ""
  · simp [netUrlString, hp, hq]
  · simp [netUrlString, hp, hq, String.data_append]

theorem netUrlParse_path_query (s p q : String) (rest : List Char)
    (hs : s.data = p.data ++ (if q = "" then [] else '?' :: q.data))
    (hp : p.data = '/' :: rest) (hrest : rest.head? ≠ some '/')
    (hpc : ∀ ch ∈ p.data, ch ≠ '?' ∧ ch ≠ '#' ∧ ¬ (ch.toNat < 32 ∨ ch.toNat = 127))
    (hqc : ∀ ch ∈ q.data, ch ≠ '#' ∧ ¬ (ch.toNat < 32 ∨ ch.toNat = 127)) :
    netUrlParse s = .ok { Path := p, RawQuery := q } := by
  have hqd : q = "" ↔ q.data = [] := by
    constructor
    · intro h; rw [h]
    · intro h; exact String.ext h
  have hsc : ∀ ch ∈ s.data, ch ≠ '#' ∧ ¬ (ch.toNat < 32 ∨ ch.toNat = 127) := by
    intro ch hch
    rw [hs] at hch
    rcases List.mem_append.1 hch with h | h
    · exact ⟨(hpc ch h).2.1, (hpc ch h).2.2⟩
    · by_cases hq : q = ""
      · simp [hq] at h
      · simp only [hq, if_false, List.mem_cons] at h
        rcases h with h | h
        · subst h
          exact ⟨by decide, by decide⟩
        · exact hqc ch h
  have hfrag : s.data.takeWhile (fun ch => ch ≠ '#') = s.data := by
    rw [List.takeWhile_eq_self_iff]
    intro ch hch
    simpa using (hsc ch hch).1
  have hctl : (s.data.any fun ch => ch.toNat < 32 ∨ ch.toNat = 127) = false := by
    rw [List.any_eq_false]
    intro ch hch
    simpa using (hsc ch hch).2
  have hstar : s.data ≠ ['*'] := by
    rw [hs, hp]
    simp
  have hscheme : getScheme (String.mk s.data) = .ok ("", String.mk s.data) := by
    unfold getScheme
    show getSchemeFrom s.data s.data [] = _
    conv => lhs; arg 2; rw [hs, hp]
    simp [getSchemeFrom]
  have hpq : ∀ ch ∈ p.data, (decide (ch ≠ '?')) = true := by
    intro ch hch
    simpa using (hpc ch hch).1
  have htake : s.data.takeWhile (fun ch => ch ≠ '?') = p.data := by
    rw [hs]
    by_cases hq : q = ""
    · simp only [hq, if_true, List.append_nil]
      exact List.takeWhile_eq_self_iff.2 hpq
    · simp only [hq, if_false]
      rw [List.takeWhile_append_of_pos hpq]
      simp
  have hdrop : (s.data.dropWhile (fun ch => ch ≠ '?')).drop 1 = q.data := by
    rw [hs]
    by_cases hq : q = ""
    · simp only [hq, if_true, List.append_nil]
      rw [List.dropWhile_eq_nil_iff.2 hpq]
      rfl
    · simp only [hq, if_false]
      rw [List.dropWhile_append_of_pos hpq]
      simp
  have hforce : ¬ (s.data.getLast? = some '?' ∧ s.data.count '?' = 1) := by
    rintro ⟨hlast, hcount⟩
    have hp0 : p.data.count '?' = 0 :=
      List.count_eq_zero.2 fun hmem => (hpc '?' hmem).1 rfl
    rw [hs] at hlast hcount
    by_cases hq : q = ""
    · simp only [hq, if_true, List.append_nil] at hlast
      exact (hpc '?' (List.mem_of_getLast?_eq_some hlast)).1 rfl
    · simp only [hq, if_false, List.count_append, hp0, List.count_cons_self, Nat.zero_add]
        at hcount
      have hq0 : q.data.count '?' = 0 := by omega
      have hqne : q.data ≠ [] := fun h => hq (hqd.2 h)
      obtain ⟨a, l, hal⟩ := List.exists_cons_of_ne_nil hqne
      simp only [hq, if_false, hal] at hlast
      rw [List.getLast?_append] at hlast
      simp only [List.getLast?_cons_cons] at hlast
      have hsome : (a :: l).getLast? = some ((a :: l).getLast (by simp)) :=
        List.getLast?_eq_getLast _ _
      rw [hsome] at hlast
      simp only [Option.or, Option.some.injEq] at hlast
      have hmem : '?' ∈ a :: l := hlast ▸ List.getLast_mem _
      rw [← hal] at hmem
      exact (List.count_eq_zero.1 hq0) hmem
  have hpre : (['/', '/'] : List Char).isPrefixOf ('/' :: rest) = false := by
    cases rest with
    | nil => rfl
    | cons a l =>
      have ha : ¬ '/' = a := fun h => hrest (by simp [← h])
      simp [List.isPrefixOf, ha]
  have hpeq : (String.mk ('/' :: rest)) = p := String.ext hp.symm
  unfold netUrlParse
  simp only [hfrag, hctl, hstar, hscheme, String.data, htake, hdrop, hforce, hp]
  simp [hpre, hpeq]

theorem unescapedInPath_plain (ch : Char) (h : unescapedInPath ch = true) :
    ch ≠ '?' ∧ ch ≠ '#' ∧ ¬ (ch.toNat < 32 ∨ ch.toNat = 127) := by
  unfold unescapedInPath at h
  rw [Bool.or_eq_true] at h
  rcases h with h | h
  · have hn : 48 ≤ ch.toNat ∧ ch.toNat ≤ 122 ∧ ch.toNat ≠ 63 := by
      simp only [Char.isAlphanum, Char.isAlpha, Char.isUpper, Char.isLower, Char.isDigit,
        Bool.or_eq_true, Bool.and_eq_true, decide_eq_true_eq, UInt32.le_def,
        ge_iff_le, BitVec.le_def] at h
      have e : ∀ a : UInt32, a.toBitVec.toNat = a.toNat := fun _ => rfl
      simp only [e] at h
      have e65 : (65 : UInt32).toNat = 65 := rfl
      have e90 : (90 : UInt32).toNat = 90 := rfl
      have e97 : (97 : UInt32).toNat = 97 := rfl
      have e122 : (122 : UInt32).toNat = 122 := rfl
      have e48 : (48 : UInt32).toNat = 48 := rfl
      have e57 : (57 : UInt32).toNat = 57 := rfl
      rw [e65, e90, e97, e122, e48, e57] at h
      show 48 ≤ ch.val.toNat ∧ ch.val.toNat ≤ 122 ∧ ch.val.toNat ≠ 63
      omega
    refine ⟨?_, ?_, ?_⟩
    · intro hc
      rw [hc] at hn
      exact hn.2.2 (by rfl)
    · intro hc
      rw [hc] at hn
      exact absurd hn.1 (by decide)
    · omega
  · simp only [List.mem_cons, List.mem_singleton, decide_eq_true_eq, List.not_mem_nil,
      or_false] at h
    rcases h with h | h | h | h | h | h | h | h | h | h | h | h | h <;> subst h <;> decide

theorem netUrl_roundtrip (p q : String) (rest : List Char)
    (hp : p.data = '/' :: rest) (hrest : rest.head? ≠ some '/')
    (hpc : ∀ ch ∈ p.data, unescapedInPath ch = true)
    (hqc : ∀ ch ∈ q.data, ch ≠ '#' ∧ ¬ (ch.toNat < 32 ∨ ch.toNat = 127)) :
    netUrlParse (netUrlString { Path := p, RawQuery := q }) =
      .ok { Path := p, RawQuery := q } :=
  netUrlParse_path_query _ p q rest (netUrlString_path_query p q rest hp) hp hrest
    (fun ch hch => unescapedInPath_plain ch (hpc ch hch)) hqc

/-- C18, counterexample. The request `GET //foo/bar?id=7` has the request URL
path `//foo/bar`. Its string form `//foo/bar?id=7` is read back by `url.Parse`
as host `foo` and path `/bar`, so the URL returned by `requestURL` has the path
`/bar`: it does not keep the path of the request URL. -/
theorem requestURL_double_slash_path :
    doubleSlashRequest.URL.Path = "//foo/bar" ∧
    netLib.urlString doubleSlashRequest.URL = "//foo/bar?id=7" ∧
    netLib.urlParse "//foo/bar?id=7" =
      .ok { Host := "foo", Path := "/bar", RawQuery := "id=7" } ∧
    requestURL netLib doubleSlashRequest =
      .ok { Scheme := "http", Host := "app", Path := "/bar", RawQuery := "id=7" } ∧
    ¬ ∃ u, requestURL netLib doubleSlashRequest = .ok u ∧
      u.Path = doubleSlashRequest.URL.Path := by
  have hres : requestURL netLib doubleSlashRequest =
      .ok { Scheme := "http", Host := "app", Path := "/bar", RawQuery := "id=7" } := by rfl
  refine ⟨by rfl, by rfl, by rfl, hres, ?_⟩
  rintro ⟨u, hu, hpath⟩
  rw [hres] at hu
  injection hu with hu
  rw [← hu] at hpath
  exact absurd hpath (by decide)

/-- C18, amended. When `url.Parse` accepts the string form of the request URL
and reads it back as `u0`, `requestURL` returns `u0` with its path, query and
user information kept, its host replaced by the `X-Forwarded-Host` header when
that header is non-empty and by the request `Host` otherwise, and its scheme
replaced by the `X-Forwarded-Proto` header when that header is non-empty,
otherwise by `https` when the request has TLS state, otherwise by `http`. The
path and query are those of the request URL whenever the round trip through the
string form returns them; with `url.Parse` and `URL.String` as embedded from
`net/url`, it does so for every request URL without scheme, host or user
information whose path begins with a single `/` and needs no escaping and
whose query has no `#` and no control character. -/
theorem requestURL_canonical (lib : Lib) (r : Request) (u0 : URL)
    (hparse : lib.urlParse (lib.urlString r.URL) = .ok u0) :
    requestURL lib r =
      .ok { Path := u0.Path, RawQuery := u0.RawQuery, User := u0.User,
            Host := (if r.Header.Get "X-Forwarded-Host" ≠ "" then
                r.Header.Get "X-Forwarded-Host"
              else r.Host),
            Scheme := (if r.Header.Get "X-Forwarded-Proto" ≠ "" then
                r.Header.Get "X-Forwarded-Proto"
              else if r.TLS = true then "https" else "http") } ∧
    (u0.Path = r.URL.Path → u0.RawQuery = r.URL.RawQuery →
      requestURL lib r =
        .ok { Path := r.URL.Path, RawQuery := r.URL.RawQuery, User := u0.User,
              Host := (if r.Header.Get "X-Forwarded-Host" ≠ "" then
                  r.Header.Get "X-Forwarded-Host"
                else r.Host),
              Scheme := (if r.Header.Get "X-Forwarded-Proto" ≠ "" then
                  r.Header.Get "X-Forwarded-Proto"
                else if r.TLS = true then "https" else "http") }) ∧
    (∀ (r2 : Request) (rest : List Char),
      r2.URL.Scheme = "" → r2.URL.Host = "" → r2.URL.User = none →
      r2.URL.Path.data = '/' :: rest → rest.head? ≠ some '/' →
      (∀ ch ∈ r2.URL.Path.data, unescapedInPath ch = true) →
      (∀ ch ∈ r2.URL.RawQuery.data, ch ≠ '#' ∧ ¬ (ch.toNat < 32 ∨ ch.toNat = 127)) →
      requestURL netLib r2 =
        .ok { Path := r2.URL.Path, RawQuery := r2.URL.RawQuery, User := none,
              Host := (if r2.Header.Get "X-Forwarded-Host" ≠ "" then
                  r2.Header.Get "X-Forwarded-Host"
                else r2.Host),
              Scheme := (if r2.Header.Get "X-Forwarded-Proto" ≠ "" then
                  r2.Header.Get "X-Forwarded-Proto"
                else if r2.TLS = true then "https" else "http") }) := by
  refine ⟨requestURL_eq_of_parse lib r u0 hparse, ?_, ?_⟩
  · intro hp hq
    rw [← hp, ← hq]
    exact requestURL_eq_of_parse lib r u0 hparse
  · intro r2 rest hs hh hu hp hrest hpc hqc
    have hurl : r2.URL = { Path := r2.URL.Path, RawQuery := r2.URL.RawQuery } := by
      cases hc : r2.URL with
      | mk sc us ho pa rq =>
        rw [hc] at hs hh hu
        simp only at hs hh hu
        subst hs hh hu
        rfl
    have hrt : netLib.urlParse (netLib.urlString r2.URL) =
        .ok { Path := r2.URL.Path, RawQuery := r2.URL.RawQuery } := by
      conv => lhs; rw [hurl]
      exact netUrl_roundtrip r2.URL.Path r2.URL.RawQuery rest hp hrest hpc hqc
    exact requestURL_eq_of_parse netLib r2 _ hrt

/-- Witness of C18: `/orders?id=7` over TLS with a forwarded host, and the
same request with a forwarded scheme and no forwarded host. -/
theorem requestURL_canonical_witness :
    requestURL netLib forwardedRequest =
      .ok { Scheme := "https", Host := "shop.example.org", Path := "/orders",
            RawQuery := "id=7" } ∧
    requestURL netLib { forwardedRequest with Header := [("X-Forwarded-Proto", ["http"])] } =
      .ok { Scheme := "http", Host := "10.0.0.7:8080", Path := "/orders",
            RawQuery := "id=7" } :=
  have h := requestURL_canonical netLib forwardedRequest
    { Path := "/orders", RawQuery := "id=7" } (by rfl)
  ⟨(h.2.1 (by rfl) (by rfl)).trans (by rfl),
    (h.2.2 { forwardedRequest with Header := [("X-Forwarded-Proto", ["http"])] }
      ['o', 'r', 'd', 'e', 'r', 's'] (by rfl) (by rfl) (by rfl) (by rfl) (by decide)
      (by decide) (by decide)).trans (by rfl)⟩

/-- C19. With no authentication response attached to the request context, or a
nil one, `IsAuthenticated` is false and every accessor returns its zero value
(`""`, a nil map, the zero time, `false`, a nil slice). After a non-nil
response `a` is attached with `setAuthenticationResponse`, `IsAuthenticated`
is true and every accessor returns the field of `a`. Attaching a response
leaves the client seen by `getClient` as it was, and `setClient` leaves the
attached response as it was. -/
theorem accessors_follow_attached_response (c : Client τ ς) (r : Request) :
    ((r.ctxAuth = none ∨ r.ctxAuth = some none) →
      IsAuthenticated r = false ∧ Username r = "" ∧ Attributes r = none ∧
      AuthenticationDate r = 0 ∧ IsNewLogin r = false ∧ IsRememberedLogin r = false ∧
      MemberOf r = none) ∧
    (∀ a : AuthenticationResponse,
      IsAuthenticated (setAuthenticationResponse r (some a)) = true ∧
      Username (setAuthenticationResponse r (some a)) = a.User ∧
      Attributes (setAuthenticationResponse r (some a)) = a.Attributes ∧
      AuthenticationDate (setAuthenticationResponse r (some a)) = a.AuthenticationDate ∧
      IsNewLogin (setAuthenticationResponse r (some a)) = a.IsNewLogin ∧
      IsRememberedLogin (setAuthenticationResponse r (some a)) = a.IsRememberedLogin ∧
      MemberOf (setAuthenticationResponse r (some a)) = a.MemberOf) ∧
    (∀ a : Option AuthenticationResponse,
      getClient c (setAuthenticationResponse r a) = getClient c r) ∧
    getAuthenticationResponse (setClient r) = getAuthenticationResponse r := by
  refine ⟨?_, ?_, ?_, ?_⟩
  · intro h
    have hnil : getAuthenticationResponse r = none := by
      rcases h with h | h <;> simp [getAuthenticationResponse, h]
    simp [IsAuthenticated, Username, Attributes, AuthenticationDate, IsNewLogin,
      IsRememberedLogin, MemberOf, hnil]
  · intro a
    simp [IsAuthenticated, Username, Attributes, AuthenticationDate, IsNewLogin,
      IsRememberedLogin, MemberOf, getAuthenticationResponse, setAuthenticationResponse]
  · intro a
    simp [getClient, setAuthenticationResponse]
  · simp [getAuthenticationResponse, setClient]

/-- Witness of C19: a request with nothing attached, then with a nil response
attached. -/
theorem accessors_follow_attached_response_witness :
    (IsAuthenticated cookieRequest = false ∧ Username cookieRequest = "" ∧
      Attributes cookieRequest = none ∧ AuthenticationDate cookieRequest = 0 ∧
      IsNewLogin cookieRequest = false ∧ IsRememberedLogin cookieRequest = false ∧
      MemberOf cookieRequest = none) ∧
    IsAuthenticated (setAuthenticationResponse cookieRequest none) = false :=
  ⟨(accessors_follow_attached_response memoryClient cookieRequest).1 (Or.inl (by rfl)),
    ((accessors_follow_attached_response memoryClient
      (setAuthenticationResponse cookieRequest none)).1 (Or.inr (by rfl))).1⟩

/-! ## Session identifiers -/

/-- C20. For every output of the random source, `newSessionID` returns a
string of exactly 64 characters, each taken from the alphabet of the 62
characters `a` to `z`, `A` to `Z`, `0` to `9`; the index `v % 62` computed for
each byte `v` is within the bounds of the alphabet. -/
theorem newSessionID_in_alphabet (rnd : Nat → Nat) :
    (newSessionID rnd).length = 64 ∧
    sessionAlphabet.length = 62 ∧
    (∀ ch ∈ sessionAlphabet.data, ch.isAlphanum = true) ∧
    (∀ ch ∈ (newSessionID rnd).data, ch ∈ sessionAlphabet.data) ∧
    (∀ k, (rnd k % 256) % (sessionAlphabet.length % 256) < sessionAlphabet.length ∧
      (rnd k % 256) % (sessionAlphabet.length % 256) = (rnd k % 256) % 62) := by
  have hlen : sessionAlphabet.length = 62 := by rfl
  have hidx : ∀ k, (rnd k % 256) % (sessionAlphabet.length % 256) < sessionAlphabet.length := by
    intro k
    rw [hlen]
    exact Nat.mod_lt _ (by decide)
  refine ⟨?_, hlen, by decide, ?_, fun k => ⟨hidx k, by rw [hlen]⟩⟩
  · unfold newSessionID
    simp only [String.length, List.length_map, List.length_range]
  · intro ch hch
    simp only [newSessionID, List.mem_map] at hch
    obtain ⟨k, _, hk⟩ := hch
    have hlt : (rnd k % 256) % (sessionAlphabet.length % 256) < sessionAlphabet.data.length :=
      hidx k
    rw [← hk, List.getD_eq_getElem _ _ hlt]
    exact List.getElem_mem _

/-! ## Session invalidation -/

theorem memorySessionStore_deleteRemoves : memorySessionStore.DeleteRemoves := by
  intro st id
  show MemorySessionStore.Get (st.filter (fun p => p.1 ≠ id)) id = none
  unfold MemorySessionStore.Get
  rw [lookup_filter_ne]

/-- C21. Invalidating the session of a request that carries the session cookie
`ck` twice in succession with `clearSession` (a total function: it returns no
error and does not panic): each call sets the cookie again on its response
writer with `MaxAge = -1`, after each call the session store has no binding for
the cookie value, and when the cookie value was bound to a ticket `t` before
the first call, the ticket store cannot read `t` after either call. The stores
are any stores whose `Delete` removes the entry. -/
theorem clearSession_idempotent (c : Client τ ς) (rnd rnd2 : Nat → Nat) (x : Conn τ ς)
    (ck : Cookie) (w2 : ResponseWriter)
    (hS : c.sessions.DeleteRemoves) (hT : c.tickets.DeleteRemoves)
    (hcookie : x.r.Cookie sessionCookieName = some ck) :
    (c.clearSession rnd x).w.SetCookies = x.w.SetCookies ++ [{ ck with MaxAge := -1 }] ∧
    (c.clearSession rnd2 { c.clearSession rnd x with w := w2 }).w.SetCookies =
      w2.SetCookies ++ [{ ck with MaxAge := -1 }] ∧
    c.sessions.Get (c.clearSession rnd x).sessions ck.Value = none ∧
    c.sessions.Get (c.clearSession rnd2 { c.clearSession rnd x with w := w2 }).sessions
      ck.Value = none ∧
    (∀ t, c.sessions.Get x.sessions ck.Value = some t →
      (∃ e, c.tickets.Read (c.clearSession rnd x).tickets t = .error e) ∧
      ∃ e, c.tickets.Read
        (c.clearSession rnd2 { c.clearSession rnd x with w := w2 }).tickets t = .error e) := by
  have hr : (c.clearSession rnd x).r = x.r := by
    cases hg : c.sessions.Get x.sessions ck.Value <;>
      simp [Client.clearSession, Client.getCookie, hcookie, hg]
  have hget : c.sessions.Get (c.clearSession rnd x).sessions ck.Value = none := by
    cases hg : c.sessions.Get x.sessions ck.Value with
    | none => simp [Client.clearSession, Client.getCookie, hcookie, hg]
    | some t =>
      simp [Client.clearSession, Client.getCookie, hcookie, hg, Client.deleteSession,
        hS x.sessions ck.Value]
  have hcookie2 : ({ c.clearSession rnd x with w := w2 } : Conn τ ς).r.Cookie
      sessionCookieName = some ck := by
    show (c.clearSession rnd x).r.Cookie sessionCookieName = some ck
    rw [hr]
    exact hcookie
  have hz : c.clearSession rnd2 { c.clearSession rnd x with w := w2 } =
      { c.clearSession rnd x with w := clearCookie w2 ck } := by
    have hget2 : c.sessions.Get
        ({ c.clearSession rnd x with w := w2 } : Conn τ ς).sessions ck.Value = none := hget
    generalize c.clearSession rnd x = y at hcookie2 hget2
    simp [Client.clearSession, Client.getCookie, hcookie2, hget2]
  refine ⟨?_, ?_, hget, ?_, ?_⟩
  · cases hg : c.sessions.Get x.sessions ck.Value <;>
      simp [Client.clearSession, Client.getCookie, hcookie, hg, clearCookie, httpSetCookie]
  · rw [hz]
    simp [clearCookie, httpSetCookie]
  · rw [hz]
    exact hget
  · intro t ht
    have h1 : ∃ e, c.tickets.Read (c.clearSession rnd x).tickets t = .error e := by
      obtain ⟨_, e, he⟩ := hT x.tickets t
      exact ⟨e, by simpa [Client.clearSession, Client.getCookie, hcookie, ht] using he⟩
    refine ⟨h1, ?_⟩
    rw [hz]
    exact h1

/-- Witness of C21: the session `s1`, bound to `ST-1`, invalidated twice. -/
theorem clearSession_idempotent_witness :
    (memoryClient.clearSession (fun _ => 0) sessionConn).w.SetCookies =
      [{ Name := sessionCookieName, Value := "s1", MaxAge := -1 }] ∧
    (memoryClient.clearSession (fun _ => 1)
      { memoryClient.clearSession (fun _ => 0) sessionConn with w := {} }).w.SetCookies =
      [{ Name := sessionCookieName, Value := "s1", MaxAge := -1 }] ∧
    memoryClient.sessions.Get (memoryClient.clearSession (fun _ => 1)
      { memoryClient.clearSession (fun _ => 0) sessionConn with w := {} }).sessions "s1" =
      none ∧
    (∃ e, memoryClient.tickets.Read (memoryClient.clearSession (fun _ => 1)
      { memoryClient.clearSession (fun _ => 0) sessionConn with w := {} }).tickets "ST-1" =
      .error e) :=
  have h := clearSession_idempotent memoryClient (fun _ => 0) (fun _ => 1) sessionConn
    { Name := sessionCookieName, Value := "s1" } {}
    memorySessionStore_deleteRemoves memoryTicketStore_deleteRemoves (by decide)
  ⟨h.1, h.2.1, h.2.2.2.1, (h.2.2.2.2 "ST-1" (by rfl)).2⟩

/-! ## CAS 1 answers that are not handled -/

theorem goSlice_short_body (body : String) (hlen : body.length < 5) :
    goSlice body 4 ((body.length : Int) - 1) =
      .error (.runtimePanic "runtime error: slice bounds out of range") := by
  unfold goSlice
  rw [if_neg]
  intro h
  have h2 := h.2.1
  omega

theorem validateTicketCas1_short_body (lib : Lib) (codec : Codec) (net : Transport)
    (validator : ServiceTicketValidator) (serviceURL : URL) (ticket : String)
    (u : String) (r0 : OutRequest) (resp : HttpResponse) (body : String)
    (hurl : validator.ValidateUrl lib codec serviceURL ticket = .ok u)
    (hreq : newRequest lib "GET" u = .ok r0)
    (hnet : net { r0 with Header := r0.Header.Add "User-Agent" userAgent } = .ok resp)
    (h200 : resp.StatusCode = 200) (hbody : resp.Body = .ok body)
    (hne : body ≠ "no\n\n") (hlen : body.length < 5) :
    (validator.validateTicketCas1 lib codec net serviceURL ticket).result =
      .error (.runtimePanic "runtime error: slice bounds out of range") := by
  unfold ServiceTicketValidator.validateTicketCas1
  simp only [hurl, hreq, hnet, hbody]
  rw [if_neg (by simp [h200]), if_neg hne, goSlice_short_body body hlen]

/-- C22, at three failing inputs: the CAS 1 `validate` endpoint answers 200
with the body `no` and one newline, with the empty body, and with `yes` and a
newline. Each body is shorter than 5 bytes and is not `no` with two newlines,
so `body[4 : len(body)-1]` is out of range and `validateTicketCas1` panics
instead of returning a result or an error. -/
theorem validateTicketCas1_short_body_panics :
    (memoryClient.stValidator.validateTicketCas1 plainLib plainCodec cas1ShortNet
        plainRestClient.serviceURL "ST-1").result =
      .error (.runtimePanic "runtime error: slice bounds out of range") ∧
    (memoryClient.stValidator.validateTicketCas1 plainLib plainCodec cas1EmptyNet
        plainRestClient.serviceURL "ST-1").result =
      .error (.runtimePanic "runtime error: slice bounds out of range") ∧
    (memoryClient.stValidator.validateTicketCas1 plainLib plainCodec cas1BareYesNet
        plainRestClient.serviceURL "ST-1").result =
      .error (.runtimePanic "runtime error: slice bounds out of range") ∧
    goSlice "no\n" 4 ((("no\n" : String).length : Int) - 1) =
      .error (.runtimePanic "runtime error: slice bounds out of range") := by
  refine ⟨by rfl, by rfl, by rfl, by rfl⟩

theorem getSession_nil_response_binds (lib : Lib) (codec : Codec) (net : Transport)
    (c : Client τ ς) (rnd : Nat → Nat) (x : Conn τ ς) (ck : Cookie) (t : String) (u : URL)
    (st : τ)
    (hcookie : x.r.Cookie sessionCookieName = some ck)
    (hnobind : c.sessions.Get x.sessions ck.Value = none)
    (hticket : x.r.Query.Get "ticket" = t) (hne : t ≠ "")
    (hurl : requestURL lib x.r = .ok u)
    (hval : (c.stValidator.ValidateTicket lib codec net u t c.proxy).result = .ok none)
    (hwrite : c.tickets.Write x.tickets t none = (st, none))
    (hread : c.tickets.Read st t = .ok none) :
    (c.getSession lib codec net rnd x).1.sessions = c.sessions.Set x.sessions ck.Value t ∧
    (c.getSession lib codec net rnd x).1.tickets = st ∧
    (c.getSession lib codec net rnd x).2 = some nilDereference := by
  simp [Client.getSession, Client.getCookie, hcookie, hnobind, hticket, hne,
    Client.validateTicket, hurl, hval, hwrite, hread, Client.setSession]

/-- C23, at the failing input: the session `s1` has no binding, the request
presents `ST-1`, and the CAS 1 provider answers `no` with two newlines, so that
validation returns a nil response with a nil error. `getSession` writes the nil
response to the ticket store, binds `s1` to `ST-1` in the session store, reads
the nil response back and panics on `t.User`. -/
theorem getSession_cas1_no_binds_and_panics :
    (memoryClient.stValidator.ValidateTicket plainLib plainCodec cas1DenyNet
        plainRestClient.serviceURL "ST-1" memoryClient.proxy).result = .ok none ∧
    memoryClient.sessions.Get ticketConn.sessions "s1" = none ∧
    memoryClient.sessions.Get
      (memoryClient.getSession plainLib plainCodec cas1DenyNet (fun _ => 0)
        ticketConn).1.sessions "s1" = some "ST-1" ∧
    memoryClient.tickets.Read
      (memoryClient.getSession plainLib plainCodec cas1DenyNet (fun _ => 0)
        ticketConn).1.tickets "ST-1" = .ok none ∧
    (memoryClient.getSession plainLib plainCodec cas1DenyNet (fun _ => 0) ticketConn).2 =
      some nilDereference := by
  refine ⟨by rfl, by rfl, by rfl, by rfl, by rfl⟩

/-! ## Distribution of session identifier characters -/

theorem newSessionID_eq_map_sessionChar (rnd : Nat → Nat) :
    newSessionID rnd = String.mk ((List.range 64).map fun k => sessionChar (rnd k)) := rfl

set_option maxRecDepth 100000 in
theorem sessionCharPreimages_table :
    ∀ i : Fin 62, sessionCharPreimages (sessionAlphabet.data.getD i.val 'a') =
      if i.val < 8 then 5 else 4 := by
  decide

set_option maxRecDepth 100000 in
theorem sessionChar_eq_mod :
    ∀ v : Fin 256, sessionChar v.val = sessionAlphabet.data.getD (v.val % 62) 'a' := by
  decide

/-- C24. The mapping of `newSessionID` from the 256 byte values to characters,
`v ↦ alphabet[v % 62]`, is not uniform: each of the characters at the alphabet
indices 0 to 7 (`a` to `h`) is the image of exactly 5 byte values, each of the
other 54 characters of exactly 4; a uniformly random byte therefore gives each
of `a` to `h` with probability 5/256 and each other character with probability
4/256. -/
theorem sessionChar_not_uniform :
    (∀ v, v < 256 → sessionChar v = sessionAlphabet.data.getD (v % 62) 'a') ∧
    sessionAlphabet.data.take 8 = ['a', 'b', 'c', 'd', 'e', 'f', 'g', 'h'] ∧
    (∀ i, i < 8 → sessionCharPreimages (sessionAlphabet.data.getD i 'a') = 5) ∧
    (∀ i, 8 ≤ i → i < 62 → sessionCharPreimages (sessionAlphabet.data.getD i 'a') = 4) ∧
    (∀ i, i < 8 →
      (sessionCharPreimages (sessionAlphabet.data.getD i 'a') : ℚ) / 256 = 5 / 256) ∧
    (∀ i, 8 ≤ i → i < 62 →
      (sessionCharPreimages (sessionAlphabet.data.getD i 'a') : ℚ) / 256 = 4 / 256) ∧
    (5 : ℚ) / 256 ≠ 4 / 256 := by
  have h5 : ∀ i, i < 8 → sessionCharPreimages (sessionAlphabet.data.getD i 'a') = 5 := by
    intro i hi
    have h := sessionCharPreimages_table ⟨i, by omega⟩
    simpa [hi] using h
  have h4 : ∀ i, 8 ≤ i → i < 62 →
      sessionCharPreimages (sessionAlphabet.data.getD i 'a') = 4 := by
    intro i hi hlt
    have h := sessionCharPreimages_table ⟨i, hlt⟩
    have hn : ¬ i < 8 := by omega
    simpa [hn] using h
  refine ⟨fun v hv => sessionChar_eq_mod ⟨v, hv⟩, by rfl, h5, h4, ?_, ?_, by norm_num⟩
  · intro i hi
    rw [h5 i hi]
    norm_num
  · intro i hi hlt
    rw [h4 i hi hlt]
    norm_num

/-- Witness of C24: `a` has five preimages, `i` and `9` have four. -/
theorem sessionChar_not_uniform_witness :
    sessionCharPreimages 'a' = 5 ∧ sessionCharPreimages 'i' = 4 ∧
    sessionCharPreimages '9' = 4 :=
  ⟨sessionChar_not_uniform.2.2.1 0 (by decide),
    sessionChar_not_uniform.2.2.2.1 8 (by decide) (by decide),
    sessionChar_not_uniform.2.2.2.1 61 (by decide) (by decide)⟩

end

end Cas
